import Mathlib

set_option linter.unusedVariables false

/-!
Shallow embedding of `src/services/mysql-style-search.ts`
(`MySQLStyleSearchService`): keyword tokenization, per-keyword OR search
over building text fields with 1000-row windowed fetches, the (currently
disabled) architect-chain fallback, cross-keyword intersection,
sort/pagination, detail fetch and architect-name reassembly.

The external database service (Supabase) is modelled by an explicit
database state `DB`: a `select ... ilike` call becomes a `List.filter`
with case-insensitive substring matching, `range(a, b)` becomes
`drop`/`take`, `in(col, xs)` becomes membership filtering, and
`order(col)` becomes a stable insertion sort on the stored rows.
JavaScript `Set` accumulation is modelled by order-preserving
deduplicating list insertion, and JS `Record`/`Map` values are modelled
extensionally as functions from keys.
-/

namespace MySQLStyleSearch

/-- The JavaScript whitespace class used by `String.prototype.trim`. -/
def jsWhitespace (c : Char) : Bool :=
  [' ', '\t', '\n', '\x0B', '\x0C', '\r',
   '\u00A0', '\u1680', '\u2000', '\u2001', '\u2002', '\u2003',
   '\u2004', '\u2005', '\u2006', '\u2007', '\u2008', '\u2009',
   '\u200A', '\u2028', '\u2029', '\u202F', '\u205F', '\u3000',
   '\uFEFF'].contains c

/-- JavaScript `str.split(' ')` on the character list: split at every
single space character; the empty input yields one empty token. -/
def splitOnSpace : List Char → List (List Char)
  | [] => [[]]
  | c :: t =>
    if c = ' ' then [] :: splitOnSpace t
    else
      match splitOnSpace t with
      | [] => [[c]]
      | h :: r => (c :: h) :: r

/-- `splitKeywords` (lines 13-18): replace every full-width space by a
space, split on spaces, and keep only the tokens whose `trim()` is not
empty, i.e. the tokens containing at least one non-whitespace character. -/
def splitKeywords (searchQuery : String) : List String :=
  let temp := searchQuery.toList.map (fun c => if c = '　' then ' ' else c)
  ((splitOnSpace temp).filter
      (fun keyword => keyword.any (fun c => !jsWhitespace c))).map
    (fun keyword => String.mk keyword)

/-- Modelled from the spec: the literal reading of the claimed tokenizer,
which discards only the tokens that are exactly empty (rather than the
whitespace-only ones).  Used solely to compare the claim's words with
`splitKeywords` as implemented. -/
def splitKeywordsLiteral (searchQuery : String) : List String :=
  let temp := searchQuery.toList.map (fun c => if c = '　' then ' ' else c)
  ((splitOnSpace temp).filter (fun keyword => !keyword.isEmpty)).map
    (fun keyword => String.mk keyword)

/-- Case folding for `ilike`: lower-case the character list of a string. -/
def lowerStr (s : String) : List Char := s.toList.map Char.toLower

/-- Substring test on character lists (needle `pat` inside haystack). -/
def hasSub (pat : List Char) : List Char → Bool
  | [] => pat.isEmpty
  | c :: t => pat.isPrefixOf (c :: t) || hasSub pat t

/-- `col.ilike('%keyword%')`: case-insensitive substring containment. -/
def containsCI (hay pat : String) : Bool := hasSub (lowerStr pat) (lowerStr hay)

/-- `ilike` on a nullable column: a SQL NULL never matches a pattern. -/
def containsCIOpt (hay : Option String) (pat : String) : Bool :=
  match hay with
  | none => false
  | some s => containsCI s pat

/-- JavaScript truthiness filter on an optional string: `filter(Boolean)`
drops both `undefined`/`null` and the empty string. -/
def truthy : Option String → Option String
  | none => none
  | some s => if s = "" then none else some s

/-- JavaScript `a || b` for nullable strings (`null` and `""` are falsy). -/
def jsStrOr (a : Option String) (dflt : String) : String :=
  match a with
  | none => dflt
  | some s => if s = "" then dflt else s

/-- `Set.add`: append the element unless it is already present. -/
def insertUnique (l : List Nat) (x : Nat) : List Nat :=
  if x ∈ l then l else l ++ [x]

/-- Add every element of `xs` to the set `l` in order (JS `Set` keeps
insertion order and drops duplicates). -/
def addAll (l : List Nat) (xs : List Nat) : List Nat :=
  xs.foldl insertUnique l

/-- `[...new Set(xs)]`: first occurrences of `xs`, in order. -/
def dedupJs (xs : List Nat) : List Nat := addAll [] xs

/-- `Math.ceil(n / limit)` for natural `n`, `limit`. -/
def ceilDivNat (n limit : Nat) : Nat := (n + limit - 1) / limit

/-- Stable insertion of `x` into `l` with respect to the Boolean order
`le`: `x` is placed before the first element it is `le`-below-or-equal. -/
def insSorted (le : α → α → Bool) (x : α) : List α → List α
  | [] => [x]
  | y :: ys => if le x y then x :: y :: ys else y :: insSorted le x ys

/-- Stable insertion sort (models both the remote `order(...)` clause and
the JS comparator `sort`). -/
def isort (le : α → α → Bool) (l : List α) : List α :=
  l.foldr (insSorted le) []

/-! ## Data model: the four remote tables -/

/-- A row of `buildings_table_2` (the columns this service touches). -/
structure BuildingRow where
  building_id : Nat
  title : String
  titleEn : String
  buildingTypes : String
  buildingTypesEn : String
  location : String
  locationEn_from_datasheetChunkEn : String
  prefectures : String
  prefecturesEn : String
  areas : String
  areasEn : String
  uid : Option String
  slug : Option String
  completionYears : Option Nat
  lat : Int
  lng : Int
  thumbnailUrl : Option String
  youtubeUrl : Option String
deriving DecidableEq

/-- A row of `individual_architects` (names are nullable). -/
structure IndividualArchitectRow where
  individual_architect_id : Nat
  name_ja : Option String
  name_en : Option String
deriving DecidableEq

/-- A row of `architect_compositions`. -/
structure ArchitectCompositionRow where
  architect_id : Nat
  individual_architect_id : Nat
  order_index : Nat
deriving DecidableEq

/-- A row of `building_architects`. -/
structure BuildingArchitectRow where
  building_id : Nat
  architect_id : Nat
  architect_order : Nat
deriving DecidableEq

/-- The remote database state. -/
structure DB where
  buildings : List BuildingRow
  individual_architects : List IndividualArchitectRow
  architect_compositions : List ArchitectCompositionRow
  building_architects : List BuildingArchitectRow

/-! ## Remote query primitives -/

/-- One `ilike` query on a building text field: the building ids of the
rows whose field contains the keyword case-insensitively. -/
def ilikeBuildingIds (db : DB) (field : BuildingRow → String) (keyword : String) :
    List Nat :=
  (db.buildings.filter (fun b => containsCI (field b) keyword)).map
    (fun b => b.building_id)

/-- The windowed fetch loop (lines 56-89): request `range(offset,
offset + 999)`, and keep advancing by 1000 while a full window of 1000
rows comes back. -/
def fetchPages (rows : List Nat) (offset : Nat) : List Nat :=
  if h : ((rows.drop offset).take 1000).length = 1000 then
    (rows.drop offset).take 1000 ++ fetchPages rows (offset + 1000)
  else
    (rows.drop offset).take 1000
termination_by rows.length - offset
decreasing_by
  simp only [List.length_take, List.length_drop] at h
  omega

/-- The windowed fetch loop with failure injection: a failing page fetch
(`error` from the remote) breaks out of the loop, contributing no rows
from that offset onwards. -/
def fetchPagesF (fail : Nat → Bool) (rows : List Nat) (offset : Nat) : List Nat :=
  if fail offset then
    []
  else if h : ((rows.drop offset).take 1000).length = 1000 then
    (rows.drop offset).take 1000 ++ fetchPagesF fail rows (offset + 1000)
  else
    (rows.drop offset).take 1000
termination_by rows.length - offset
decreasing_by
  simp only [List.length_take, List.length_drop] at h
  omega

/-- The ten searched text fields of `buildings_table_2`, in source order
(lines 42-53). -/
def searchFields : List (String × (BuildingRow → String)) :=
  [("title", BuildingRow.title),
   ("titleEn", BuildingRow.titleEn),
   ("buildingTypes", BuildingRow.buildingTypes),
   ("buildingTypesEn", BuildingRow.buildingTypesEn),
   ("location", BuildingRow.location),
   ("locationEn_from_datasheetChunkEn", BuildingRow.locationEn_from_datasheetChunkEn),
   ("prefectures", BuildingRow.prefectures),
   ("prefecturesEn", BuildingRow.prefecturesEn),
   ("areas", BuildingRow.areas),
   ("areasEn", BuildingRow.areasEn)]

/-! ## Per-keyword resolution and intersection -/

/-- `searchInArchitectTables` (lines 143-211): name match on
`individual_architects`, then `architect_compositions`, then
`building_architects`, each capped at 10000 rows; an empty step
short-circuits to an empty contribution. -/
def searchInArchitectTables (db : DB) (keyword : String) : List Nat :=
  let individualArchitects :=
    (db.individual_architects.filter (fun ia =>
        containsCIOpt ia.name_ja keyword || containsCIOpt ia.name_en keyword)).take 10000
  if individualArchitects.isEmpty then
    []
  else
    let individualArchitectIds : List Nat :=
      individualArchitects.map (fun ia => ia.individual_architect_id)
    let compositions :=
      (db.architect_compositions.filter (fun ac =>
          decide (ac.individual_architect_id ∈ individualArchitectIds))).take 10000
    if compositions.isEmpty then
      []
    else
      let architectIds : List Nat := compositions.map (fun ac => ac.architect_id)
      let buildingArchitects :=
        (db.building_architects.filter (fun ba =>
            decide (ba.architect_id ∈ architectIds))).take 10000
      if buildingArchitects.isEmpty then
        []
      else
        buildingArchitects.map (fun ba => ba.building_id)

/-- The body of the per-keyword loop of `searchBuildingIdsByKeywords`
(lines 35-125): accumulate the windowed ilike results of all ten text
fields into one insertion-ordered set, then union in the architect-table
contribution -- which the source currently stubs out with an empty array
(line 103: `const architectBuildingIds = []; //
await this.searchInArchitectTables(keyword);`). -/
def keywordBuildingIds (db : DB) (keyword : String) : List Nat :=
  let allBuildingIds :=
    searchFields.foldl
      (fun acc fc => addAll acc (fetchPages (ilikeBuildingIds db fc.2 keyword) 0)) []
  let buildingsData := allBuildingIds
  let architectBuildingIds : List Nat := []
  addAll (addAll [] buildingsData) architectBuildingIds

/-- `searchBuildingIdsByKeywords` (lines 25-138): empty keyword list
short-circuits to an empty result; otherwise the per-keyword id sets are
intersected left to right (AND semantics). -/
def searchBuildingIdsByKeywords (db : DB) (keywords : List String) : List Nat :=
  if keywords.isEmpty then
    []
  else
    let buildingIdSets := keywords.map (keywordBuildingIds db)
    match buildingIdSets with
    | [] => []
    | s0 :: rest =>
      rest.foldl (fun resultIds s => resultIds.filter (fun i => decide (i ∈ s))) s0

/-! ## Architect data hydration and name reassembly -/

/-- An `architect_compositions` row with its joined
`individual_architects` row attached (line 276-279). -/
structure CompEntry where
  architect_id : Nat
  individual_architect_id : Nat
  order_index : Nat
  individual_architects : Option IndividualArchitectRow
deriving DecidableEq

/-- A `building_architects` row with its joined composition list
attached (lines 290-293). -/
structure GroupEntry where
  building_id : Nat
  architect_id : Nat
  architect_order : Nat
  architect_compositions : List CompEntry
deriving DecidableEq

/-- `order('building_id, architect_order')` on `building_architects`. -/
def leBuildingOrder (a b : BuildingArchitectRow) : Bool :=
  decide (a.building_id < b.building_id ||
    (a.building_id = b.building_id && a.architect_order <= b.architect_order))

/-- `order('architect_id, order_index')` on `architect_compositions`. -/
def leArchitectIndex (a b : ArchitectCompositionRow) : Bool :=
  decide (a.architect_id < b.architect_id ||
    (a.architect_id = b.architect_id && a.order_index <= b.order_index))

/-- `getArchitectDataForBuildings` (lines 216-302): fetch the ordered
`building_architects` rows for the given buildings, the ordered
compositions of their distinct architect groups, and the individual
architects of the distinct members; the returned record maps each
building id to its joined group entries. -/
def getArchitectDataForBuildings (db : DB) (buildingIds : List Nat) :
    Nat → List GroupEntry :=
  if buildingIds.isEmpty then
    fun _ => []
  else
    let buildingArchitects :=
      isort leBuildingOrder
        (db.building_architects.filter (fun ba => decide (ba.building_id ∈ buildingIds)))
    if buildingArchitects.isEmpty then
      fun _ => []
    else
      let architectIds := dedupJs (buildingArchitects.map (fun ba => ba.architect_id))
      let compositions :=
        isort leArchitectIndex
          (db.architect_compositions.filter (fun ac =>
            decide (ac.architect_id ∈ architectIds)))
      if compositions.isEmpty then
        fun _ => []
      else
        let individualArchitectIds :=
          dedupJs (compositions.map (fun ac => ac.individual_architect_id))
        let individualArchitects :=
          db.individual_architects.filter (fun ia =>
            decide (ia.individual_architect_id ∈ individualArchitectIds))
        let architectMap := fun i =>
          individualArchitects.reverse.find? (fun ia =>
            decide (ia.individual_architect_id = i))
        let compositionMap := fun aid =>
          (compositions.filter (fun ac => decide (ac.architect_id = aid))).map
            (fun ac =>
              CompEntry.mk ac.architect_id ac.individual_architect_id ac.order_index
                (architectMap ac.individual_architect_id))
        fun b =>
          (buildingArchitects.filter (fun ba => decide (ba.building_id = b))).map
            (fun ba =>
              GroupEntry.mk ba.building_id ba.architect_id ba.architect_order
                (compositionMap ba.architect_id))

/-- The JS comparator `(a, b) => a.architect_order - b.architect_order`. -/
def leGroupOrder (a b : GroupEntry) : Bool :=
  decide (a.architect_order <= b.architect_order)

/-- The JS comparator `(a, b) => a.order_index - b.order_index`. -/
def leCompIndex (a b : CompEntry) : Bool :=
  decide (a.order_index <= b.order_index)

/-- The architect display string of one building (lines 363-385): sort
the credited groups by `architect_order`, for each group sort its
members by `order_index`, take the requested-language names, drop the
falsy ones, join with " / ", drop the falsy group strings, and join
with " / " again. -/
def joinArchitectNames (name : IndividualArchitectRow → Option String)
    (buildingArchitects : List GroupEntry) : String :=
  String.intercalate " / "
    (((isort leGroupOrder buildingArchitects).map (fun ba =>
        String.intercalate " / "
          ((isort leCompIndex ba.architect_compositions).filterMap
            (fun ac => truthy (ac.individual_architects.bind name))))).filter
      (fun s => s != ""))

/-- One element of the response `data` array (lines 387-405). -/
structure TransformedBuilding where
  id : Nat
  building_id : Nat
  title : String
  titleEn : String
  uid : Option String
  slug : String
  buildingTypes : String
  buildingTypesEn : String
  location : String
  locationEn_from_datasheetChunkEn : String
  completionYears : Option Nat
  lat : Int
  lng : Int
  thumbnailUrl : Option String
  youtubeUrl : Option String
  architectJa : String
  architectEn : String
deriving DecidableEq

/-- The per-building transformation of `searchBuildings` (lines 359-406). -/
def transformBuilding (architectData : Nat → List GroupEntry)
    (building : BuildingRow) : TransformedBuilding :=
  let buildingArchitects := architectData building.building_id
  let architectJa := joinArchitectNames IndividualArchitectRow.name_ja buildingArchitects
  let architectEn := joinArchitectNames IndividualArchitectRow.name_en buildingArchitects
  { id := building.building_id
    building_id := building.building_id
    title := building.title
    titleEn := building.titleEn
    uid := building.uid
    slug := jsStrOr building.slug (jsStrOr building.uid (toString building.building_id))
    buildingTypes := building.buildingTypes
    buildingTypesEn := building.buildingTypesEn
    location := building.location
    locationEn_from_datasheetChunkEn := building.locationEn_from_datasheetChunkEn
    completionYears := building.completionYears
    lat := building.lat
    lng := building.lng
    thumbnailUrl := building.thumbnailUrl
    youtubeUrl := building.youtubeUrl
    architectJa := architectJa
    architectEn := architectEn }

/-! ## Top-level search -/

/-- The two display languages of the public operation. -/
inductive Lang where
  | ja
  | en
deriving DecidableEq

/-- The shape of the `searchBuildings` response. -/
structure SearchResult where
  data : List TransformedBuilding
  count : Nat
  page : Nat
  totalPages : Nat
deriving DecidableEq

/-- `buildingIds.sort((a, b) => b - a)`: descending numeric sort. -/
def sortIdsDesc (l : List Nat) : List Nat :=
  isort (fun a b => decide (b <= a)) l

/-- `searchBuildings` (lines 307-426), failure-free execution: tokenize,
resolve ids, short-circuit on an empty match set, sort descending,
paginate, fetch the page rows in descending id order, hydrate architect
data, and shape the response. -/
def searchBuildings (db : DB) (query : Option String) (language : Lang)
    (page limit : Nat) : SearchResult :=
  let keywords := splitKeywords (query.getD "")
  let buildingIds := searchBuildingIdsByKeywords db keywords
  if buildingIds.isEmpty then
    { data := [], count := 0, page := page, totalPages := 0 }
  else
    let sortedBuildingIds := sortIdsDesc buildingIds
    let offset := (page - 1) * limit
    let paginatedIds := (sortedBuildingIds.drop offset).take limit
    let buildingsData :=
      isort (fun a b => decide (b.building_id <= a.building_id))
        (db.buildings.filter (fun b => decide (b.building_id ∈ paginatedIds)))
    let architectData := getArchitectDataForBuildings db paginatedIds
    let transformedData := buildingsData.map (transformBuilding architectData)
    { data := transformedData
      count := buildingIds.length
      page := page
      totalPages := ceilDivNat buildingIds.length limit }

/-! ## Failure injection

`Failures` assigns an outcome to every remote sub-step: a text-field
page fetch (keyed by keyword, field name and offset), the three
architect-chain lookups, the three hydration lookups, and the top-level
building detail fetch.  A `true` entry makes the corresponding remote
call return an `error`. -/

structure Failures where
  textFail : String → String → Nat → Bool
  archIndividualFail : Bool
  archCompositionFail : Bool
  archBuildingFail : Bool
  baFail : Bool
  compFail : Bool
  iaFail : Bool
  detailFail : Bool

/-- The failure-free assignment. -/
def noFailures : Failures :=
  { textFail := fun _ _ _ => false
    archIndividualFail := false
    archCompositionFail := false
    archBuildingFail := false
    baFail := false
    compFail := false
    iaFail := false
    detailFail := false }

/-- `searchInArchitectTables` under failure injection: an error at any
of the three lookups is logged and the function returns an empty
contribution (lines 152-155, 172-175, 192-195). -/
def searchInArchitectTablesF (db : DB) (fl : Failures) (keyword : String) : List Nat :=
  if fl.archIndividualFail then
    []
  else
    let individualArchitects :=
      (db.individual_architects.filter (fun ia =>
          containsCIOpt ia.name_ja keyword || containsCIOpt ia.name_en keyword)).take 10000
    if individualArchitects.isEmpty then
      []
    else
      let individualArchitectIds : List Nat :=
        individualArchitects.map (fun ia => ia.individual_architect_id)
      if fl.archCompositionFail then
        []
      else
        let compositions :=
          (db.architect_compositions.filter (fun ac =>
              decide (ac.individual_architect_id ∈ individualArchitectIds))).take 10000
        if compositions.isEmpty then
          []
        else
          let architectIds : List Nat := compositions.map (fun ac => ac.architect_id)
          if fl.archBuildingFail then
            []
          else
            let buildingArchitects :=
              (db.building_architects.filter (fun ba =>
                  decide (ba.architect_id ∈ architectIds))).take 10000
            if buildingArchitects.isEmpty then
              []
            else
              buildingArchitects.map (fun ba => ba.building_id)

/-- The per-keyword loop body under failure injection: each field's
windowed fetch breaks on the first failing page fetch, keeping the rows
collected so far; the architect-table contribution stays the disabled
empty stub. -/
def keywordBuildingIdsF (db : DB) (fl : Failures) (keyword : String) : List Nat :=
  let allBuildingIds :=
    searchFields.foldl
      (fun acc fc =>
        addAll acc (fetchPagesF (fl.textFail keyword fc.1) (ilikeBuildingIds db fc.2 keyword) 0))
      []
  let buildingsData := allBuildingIds
  let architectBuildingIds : List Nat := []
  addAll (addAll [] buildingsData) architectBuildingIds

/-- `searchBuildingIdsByKeywords` under failure injection. -/
def searchBuildingIdsByKeywordsF (db : DB) (fl : Failures) (keywords : List String) :
    List Nat :=
  if keywords.isEmpty then
    []
  else
    let buildingIdSets := keywords.map (keywordBuildingIdsF db fl)
    match buildingIdSets with
    | [] => []
    | s0 :: rest =>
      rest.foldl (fun resultIds s => resultIds.filter (fun i => decide (i ∈ s))) s0

/-- `getArchitectDataForBuildings` under failure injection: an error in
any of the three lookups returns the empty record (lines 229-232,
246-249, 262-265). -/
def getArchitectDataForBuildingsF (db : DB) (fl : Failures) (buildingIds : List Nat) :
    Nat → List GroupEntry :=
  if buildingIds.isEmpty then
    fun _ => []
  else if fl.baFail then
    fun _ => []
  else
    let buildingArchitects :=
      isort leBuildingOrder
        (db.building_architects.filter (fun ba => decide (ba.building_id ∈ buildingIds)))
    if buildingArchitects.isEmpty then
      fun _ => []
    else if fl.compFail then
      fun _ => []
    else
      let architectIds := dedupJs (buildingArchitects.map (fun ba => ba.architect_id))
      let compositions :=
        isort leArchitectIndex
          (db.architect_compositions.filter (fun ac =>
            decide (ac.architect_id ∈ architectIds)))
      if compositions.isEmpty then
        fun _ => []
      else if fl.iaFail then
        fun _ => []
      else
        let individualArchitectIds :=
          dedupJs (compositions.map (fun ac => ac.individual_architect_id))
        let individualArchitects :=
          db.individual_architects.filter (fun ia =>
            decide (ia.individual_architect_id ∈ individualArchitectIds))
        let architectMap := fun i =>
          individualArchitects.reverse.find? (fun ia =>
            decide (ia.individual_architect_id = i))
        let compositionMap := fun aid =>
          (compositions.filter (fun ac => decide (ac.architect_id = aid))).map
            (fun ac =>
              CompEntry.mk ac.architect_id ac.individual_architect_id ac.order_index
                (architectMap ac.individual_architect_id))
        fun b =>
          (buildingArchitects.filter (fun ba => decide (ba.building_id = b))).map
            (fun ba =>
              GroupEntry.mk ba.building_id ba.architect_id ba.architect_order
                (compositionMap ba.architect_id))

/-- `searchBuildings` under failure injection.  Every failing sub-step
degrades to zero rows for that step, except the top-level detail fetch
(lines 344-353), whose error is thrown, caught by the outer catch
(lines 422-425) and re-thrown to the caller. -/
def searchBuildingsF (db : DB) (fl : Failures) (query : Option String) (language : Lang)
    (page limit : Nat) : Except Unit SearchResult :=
  let keywords := splitKeywords (query.getD "")
  let buildingIds := searchBuildingIdsByKeywordsF db fl keywords
  if buildingIds.isEmpty then
    Except.ok { data := [], count := 0, page := page, totalPages := 0 }
  else
    let sortedBuildingIds := sortIdsDesc buildingIds
    let offset := (page - 1) * limit
    let paginatedIds := (sortedBuildingIds.drop offset).take limit
    if fl.detailFail then
      Except.error ()
    else
      let buildingsData :=
        isort (fun a b => decide (b.building_id <= a.building_id))
          (db.buildings.filter (fun b => decide (b.building_id ∈ paginatedIds)))
      let architectData := getArchitectDataForBuildingsF db fl paginatedIds
      let transformedData := buildingsData.map (transformBuilding architectData)
      Except.ok
        { data := transformedData
          count := buildingIds.length
          page := page
          totalPages := ceilDivNat buildingIds.length limit }

/-! ## Spec-side reference definitions -/

/-- `order('architect_order')` reference order on `building_architects`
rows of one building. -/
def leGroupOrderRow (a b : BuildingArchitectRow) : Bool :=
  decide (a.architect_order <= b.architect_order)

/-- `order('order_index')` reference order on `architect_compositions`
rows of one group. -/
def leCompIndexRow (a b : ArchitectCompositionRow) : Bool :=
  decide (a.order_index <= b.order_index)

/-- Modelled from the spec (section 4.5 and the C6 claim): the reference
architect display string of one building, built directly from the
database state: order the building's credited groups by
`architect_order`, order each group's members by `order_index`, keep the
members' present names in the requested language, join member names
with " / ", drop empty group strings, and join the group strings with
" / ". -/
def specArchitectDisplay (db : DB) (name : IndividualArchitectRow → Option String)
    (b : Nat) : String :=
  let groups :=
    isort leGroupOrderRow
      (db.building_architects.filter (fun ba => decide (ba.building_id = b)))
  let pieces := groups.map (fun ba =>
    let members :=
      isort leCompIndexRow
        (db.architect_compositions.filter (fun ac =>
          decide (ac.architect_id = ba.architect_id)))
    let names := members.filterMap (fun ac =>
      truthy ((db.individual_architects.find? (fun ia =>
        decide (ia.individual_architect_id = ac.individual_architect_id))).bind name))
    String.intercalate " / " names)
  String.intercalate " / " (pieces.filter (fun s => s != ""))

/-! ## Fetch-free evaluation forms

The windowed fetch loop is defined by well-founded recursion, which the
kernel does not reduce; the `...E` forms below replace it by its proved
result so that concrete executions can be settled by `decide`.  The
`..._eq` lemmas further down show they agree with the primary
definitions. -/

/-- `keywordBuildingIds` with each windowed fetch replaced by the full
matching row list. -/
def keywordBuildingIdsE (db : DB) (keyword : String) : List Nat :=
  let allBuildingIds :=
    searchFields.foldl (fun acc fc => addAll acc (ilikeBuildingIds db fc.2 keyword)) []
  addAll (addAll [] allBuildingIds) []

/-- `searchBuildingIdsByKeywords` over the fetch-free per-keyword form. -/
def searchBuildingIdsByKeywordsE (db : DB) (keywords : List String) : List Nat :=
  if keywords.isEmpty then
    []
  else
    match keywords.map (keywordBuildingIdsE db) with
    | [] => []
    | s0 :: rest =>
      rest.foldl (fun resultIds s => resultIds.filter (fun i => decide (i ∈ s))) s0

/-- `searchBuildings` over the fetch-free keyword resolution. -/
def searchBuildingsE (db : DB) (query : Option String) (language : Lang)
    (page limit : Nat) : SearchResult :=
  let keywords := splitKeywords (query.getD "")
  let buildingIds := searchBuildingIdsByKeywordsE db keywords
  if buildingIds.isEmpty then
    { data := [], count := 0, page := page, totalPages := 0 }
  else
    let sortedBuildingIds := sortIdsDesc buildingIds
    let offset := (page - 1) * limit
    let paginatedIds := (sortedBuildingIds.drop offset).take limit
    let buildingsData :=
      isort (fun a b => decide (b.building_id <= a.building_id))
        (db.buildings.filter (fun b => decide (b.building_id ∈ paginatedIds)))
    let architectData := getArchitectDataForBuildings db paginatedIds
    let transformedData := buildingsData.map (transformBuilding architectData)
    { data := transformedData
      count := buildingIds.length
      page := page
      totalPages := ceilDivNat buildingIds.length limit }

/-! ## Concrete database states for witnesses -/

/-- A building row with the given id and title and empty remaining
fields. -/
def mkBuilding (i : Nat) (t : String) : BuildingRow :=
  ⟨i, t, "", "", "", "", "", "", "", "", "", none, none, none, 0, 0, none, none⟩

/-- Three buildings, no architect data. -/
def dbW : DB :=
  { buildings := [mkBuilding 1 "alpha tower", mkBuilding 2 "beta tower",
                  mkBuilding 3 "gamma house"]
    individual_architects := []
    architect_compositions := []
    building_architects := [] }

/-- One building credited to one architect whose name matches no
building text field: exercises the architect-chain path. -/
def dbAndo : DB :=
  { buildings := [mkBuilding 42 "forty two building"]
    individual_architects := [⟨7, some "安藤忠雄", some "Tadao Ando"⟩]
    architect_compositions := [⟨5, 7, 1⟩]
    building_architects := [⟨42, 5, 1⟩] }

/-- One building credited to two architect groups of two named members
each: exercises the display reassembly. -/
def dbTwoGroups : DB :=
  { buildings := [mkBuilding 10 "museum"]
    individual_architects :=
      [⟨201, some "G1m1", some "G1m1en"⟩, ⟨202, some "G1m2", some "G1m2en"⟩,
       ⟨203, some "G2m1", some "G2m1en"⟩, ⟨204, some "G2m2", some "G2m2en"⟩]
    architect_compositions :=
      [⟨101, 201, 1⟩, ⟨101, 202, 2⟩, ⟨102, 203, 1⟩, ⟨102, 204, 2⟩]
    building_architects := [⟨10, 101, 1⟩, ⟨10, 102, 2⟩] }

/-- Failure assignment: only the top-level detail fetch fails. -/
def flDetail : Failures :=
  { noFailures with detailFail := true }

/-- Failure assignment: every text-field page fetch fails. -/
def flText : Failures :=
  { noFailures with textFail := fun _ _ _ => true }

/-- Failure assignment: the second architect-chain lookup fails. -/
def flArch : Failures :=
  { noFailures with archCompositionFail := true }

/-- Failure assignment: the first hydration lookup fails. -/
def flBa : Failures :=
  { noFailures with baFail := true }

/-! ## Named stages of the hydration pipeline

These name the intermediate values of `getArchitectDataForBuildings`
so that its unfolding can be stated and reasoned about compactly. -/

/-- The ordered `building_architects` rows of the requested buildings. -/
def basOf (db : DB) (ids : List Nat) : List BuildingArchitectRow :=
  isort leBuildingOrder
    (db.building_architects.filter (fun ba => decide (ba.building_id ∈ ids)))

/-- The distinct architect-group ids of those rows, in first-seen order. -/
def architectIdsOf (db : DB) (ids : List Nat) : List Nat :=
  dedupJs ((basOf db ids).map (fun ba => ba.architect_id))

/-- The ordered composition rows of those groups. -/
def compsOf (db : DB) (ids : List Nat) : List ArchitectCompositionRow :=
  isort leArchitectIndex
    (db.architect_compositions.filter (fun ac =>
      decide (ac.architect_id ∈ architectIdsOf db ids)))

/-- The distinct member ids of those compositions, in first-seen order. -/
def iaIdsOf (db : DB) (ids : List Nat) : List Nat :=
  dedupJs ((compsOf db ids).map (fun ac => ac.individual_architect_id))

/-- The fetched individual-architect rows. -/
def iasOf (db : DB) (ids : List Nat) : List IndividualArchitectRow :=
  db.individual_architects.filter (fun ia =>
    decide (ia.individual_architect_id ∈ iaIdsOf db ids))

/-- The `architectMap` lookup (a JS `Map` keeps the last entry per key). -/
def architectMapOf (db : DB) (ids : List Nat) (i : Nat) : Option IndividualArchitectRow :=
  (iasOf db ids).reverse.find? (fun ia => decide (ia.individual_architect_id = i))

/-- One joined composition entry. -/
def compEntryOf (db : DB) (ids : List Nat) (ac : ArchitectCompositionRow) : CompEntry :=
  CompEntry.mk ac.architect_id ac.individual_architect_id ac.order_index
    (architectMapOf db ids ac.individual_architect_id)

/-- The `compositionMap` lookup. -/
def compositionMapOf (db : DB) (ids : List Nat) (aid : Nat) : List CompEntry :=
  ((compsOf db ids).filter (fun ac => decide (ac.architect_id = aid))).map
    (compEntryOf db ids)

/-- One joined group entry. -/
def groupEntryOf (db : DB) (ids : List Nat) (ba : BuildingArchitectRow) : GroupEntry :=
  GroupEntry.mk ba.building_id ba.architect_id ba.architect_order
    (compositionMapOf db ids ba.architect_id)

/-! ## Helper lemmas: insertion-ordered sets -/

theorem mem_insertUnique {l : List Nat} {x y : Nat} :
    y ∈ insertUnique l x ↔ y ∈ l ∨ y = x := by
  unfold insertUnique
  split
  · constructor
    · exact fun h => Or.inl h
    · rintro (h | rfl)
      · exact h
      · assumption
  · simp [List.mem_append]

theorem nodup_insertUnique {l : List Nat} (h : l.Nodup) (x : Nat) :
    (insertUnique l x).Nodup := by
  unfold insertUnique
  split
  · exact h
  · rename_i hx
    simpa [List.nodup_append, hx] using h

theorem mem_addAll {xs : List Nat} : ∀ {l : List Nat} {y : Nat},
    y ∈ addAll l xs ↔ y ∈ l ∨ y ∈ xs := by
  induction xs with
  | nil => simp [addAll]
  | cons x t ih =>
    intro l y
    show y ∈ List.foldl insertUnique (insertUnique l x) t ↔ _
    rw [show List.foldl insertUnique (insertUnique l x) t =
          addAll (insertUnique l x) t from rfl, ih, mem_insertUnique]
    simp only [List.mem_cons]
    tauto

theorem nodup_addAll {xs : List Nat} : ∀ {l : List Nat}, l.Nodup → (addAll l xs).Nodup := by
  induction xs with
  | nil => exact fun h => h
  | cons x t ih =>
    intro l h
    exact ih (nodup_insertUnique h x)

theorem nodup_dedupJs (xs : List Nat) : (dedupJs xs).Nodup :=
  nodup_addAll List.nodup_nil

theorem mem_dedupJs {xs : List Nat} {y : Nat} : y ∈ dedupJs xs ↔ y ∈ xs := by
  unfold dedupJs
  rw [mem_addAll]
  simp

/-! ## Helper lemmas: stable insertion sort -/

theorem mem_insSorted (le : α → α → Bool) (x : α) :
    ∀ (l : List α) (y : α), y ∈ insSorted le x l ↔ y = x ∨ y ∈ l := by
  intro l
  induction l with
  | nil => simp [insSorted]
  | cons z t ih =>
    intro y
    unfold insSorted
    split
    · simp [List.mem_cons]
    · simp only [List.mem_cons, ih]
      tauto

theorem insSorted_perm (le : α → α → Bool) (x : α) :
    ∀ l : List α, (insSorted le x l).Perm (x :: l) := by
  intro l
  induction l with
  | nil => simp [insSorted]
  | cons z t ih =>
    unfold insSorted
    split
    · exact List.Perm.refl _
    · exact (List.Perm.cons z ih).trans (List.Perm.swap x z t)

theorem isort_perm (le : α → α → Bool) : ∀ l : List α, (isort le l).Perm l := by
  intro l
  induction l with
  | nil => exact List.Perm.refl _
  | cons x t ih =>
    have : isort le (x :: t) = insSorted le x (isort le t) := rfl
    rw [this]
    exact (insSorted_perm le x (isort le t)).trans (List.Perm.cons x ih)

theorem insSorted_pairwise {le : α → α → Bool}
    (htot : ∀ a b, le a b = true ∨ le b a = true)
    (htrans : ∀ a b c, le a b = true → le b c = true → le a c = true) (x : α) :
    ∀ {l : List α}, l.Pairwise (fun a b => le a b = true) →
      (insSorted le x l).Pairwise (fun a b => le a b = true) := by
  intro l
  induction l with
  | nil => simp [insSorted]
  | cons z t ih =>
    intro h
    rw [List.pairwise_cons] at h
    unfold insSorted
    split
    · rename_i hxz
      rw [List.pairwise_cons]
      refine ⟨?_, List.pairwise_cons.mpr h⟩
      intro y hy
      rcases List.mem_cons.mp hy with rfl | hyt
      · exact hxz
      · exact htrans x z y hxz (h.1 y hyt)
    · rename_i hxz
      have hzx : le z x = true := by
        rcases htot x z with h1 | h1
        · exact absurd h1 hxz
        · exact h1
      rw [List.pairwise_cons]
      refine ⟨?_, ih h.2⟩
      intro y hy
      rcases (mem_insSorted le x t y).mp hy with rfl | hyt
      · exact hzx
      · exact h.1 y hyt

theorem isort_pairwise {le : α → α → Bool}
    (htot : ∀ a b, le a b = true ∨ le b a = true)
    (htrans : ∀ a b c, le a b = true → le b c = true → le a c = true) :
    ∀ l : List α, (isort le l).Pairwise (fun a b => le a b = true) := by
  intro l
  induction l with
  | nil => simp [isort]
  | cons x t ih =>
    exact insSorted_pairwise htot htrans x ih

theorem perm_pairwise_eq {r : α → α → Prop}
    (hasymm : ∀ a b, r a b → r b a → False) :
    ∀ {l₁ l₂ : List α}, l₁.Perm l₂ → l₁.Pairwise r → l₂.Pairwise r → l₁ = l₂ := by
  intro l₁
  induction l₁ with
  | nil =>
    intro l₂ hp _ _
    exact (hp.nil_eq).symm ▸ rfl
  | cons a t₁ ih =>
    intro l₂ hp h₁ h₂
    cases l₂ with
    | nil => exact absurd hp.symm.nil_eq (by simp)
    | cons b t₂ =>
      have hab : a = b := by
        by_contra hne
        have ha2 : a ∈ b :: t₂ := hp.mem_iff.mp (List.mem_cons_self a t₁)
        have hb1 : b ∈ a :: t₁ := hp.symm.mem_iff.mp (List.mem_cons_self b t₂)
        have hat2 : a ∈ t₂ := by
          rcases List.mem_cons.mp ha2 with h | h
          · exact absurd h hne
          · exact h
        have hbt1 : b ∈ t₁ := by
          rcases List.mem_cons.mp hb1 with h | h
          · exact absurd h.symm hne
          · exact h
        have rab : r a b := (List.pairwise_cons.mp h₁).1 b hbt1
        have rba : r b a := (List.pairwise_cons.mp h₂).1 a hat2
        exact hasymm a b rab rba
      subst hab
      have hpt : t₁.Perm t₂ := hp.cons_inv
      rw [ih hpt (List.pairwise_cons.mp h₁).2 (List.pairwise_cons.mp h₂).2]

/-- Turn a weakly sorted, key-distinct list into a strictly key-sorted
one. -/
theorem pairwise_strict_of_nodup_keys {k : α → Nat} {l : List α}
    (hs : l.Pairwise (fun a b => k a ≤ k b)) (hnd : (l.map k).Nodup) :
    l.Pairwise (fun a b => k a < k b) := by
  have hne : l.Pairwise (fun a b => k a ≠ k b) := List.pairwise_map.mp hnd
  exact (hs.and hne).imp (fun h => Nat.lt_of_le_of_ne h.1 h.2)

/-- Same, for a descending weak sort. -/
theorem pairwise_strict_of_nodup_keys_desc {k : α → Nat} {l : List α}
    (hs : l.Pairwise (fun a b => k b ≤ k a)) (hnd : (l.map k).Nodup) :
    l.Pairwise (fun a b => k b < k a) := by
  have hne : l.Pairwise (fun a b => k a ≠ k b) := List.pairwise_map.mp hnd
  exact (hs.and hne).imp (fun h => Nat.lt_of_le_of_ne h.1 (Ne.symm h.2))

/-! ## Helper lemmas: the windowed fetch loop -/

theorem fetchPages_eq_drop (rows : List Nat) :
    ∀ offset, fetchPages rows offset = rows.drop offset := by
  have H : ∀ n offset, rows.length - offset ≤ n →
      fetchPages rows offset = rows.drop offset := by
    intro n
    induction n with
    | zero =>
      intro offset hle
      rw [fetchPages]
      have hlen : ((rows.drop offset).take 1000).length = 0 := by
        simp only [List.length_take, List.length_drop]
        omega
      rw [dif_neg (by omega)]
      have : (rows.drop offset).length ≤ 1000 := by
        simp only [List.length_drop]
        omega
      exact List.take_of_length_le this
    | succ n ih =>
      intro offset hle
      rw [fetchPages]
      by_cases h : ((rows.drop offset).take 1000).length = 1000
      · rw [dif_pos h]
        have hge : 1000 ≤ rows.length - offset := by
          simp only [List.length_take, List.length_drop] at h
          omega
        rw [ih (offset + 1000) (by omega)]
        have hdd : rows.drop (offset + 1000) = (rows.drop offset).drop 1000 := by
          rw [List.drop_drop]
        rw [hdd, List.take_append_drop]
      · rw [dif_neg h]
        have : (rows.drop offset).length ≤ 1000 := by
          simp only [List.length_take, List.length_drop] at h ⊢
          omega
        exact List.take_of_length_le this
  exact fun offset => H rows.length offset (Nat.sub_le _ _)

theorem fetchPagesF_noFail (rows : List Nat) :
    ∀ offset, fetchPagesF (fun _ => false) rows offset = fetchPages rows offset := by
  have H : ∀ n offset, rows.length - offset ≤ n →
      fetchPagesF (fun _ => false) rows offset = fetchPages rows offset := by
    intro n
    induction n with
    | zero =>
      intro offset hle
      rw [fetchPagesF, fetchPages]
      have hlen : ((rows.drop offset).take 1000).length = 0 := by
        simp only [List.length_take, List.length_drop]
        omega
      rw [if_neg (by simp), dif_neg (by omega), dif_neg (by omega)]
    | succ n ih =>
      intro offset hle
      rw [fetchPagesF, fetchPages]
      rw [if_neg (by simp)]
      by_cases h : ((rows.drop offset).take 1000).length = 1000
      · rw [dif_pos h, dif_pos h]
        have hge : 1000 ≤ rows.length - offset := by
          simp only [List.length_take, List.length_drop] at h
          omega
        rw [ih (offset + 1000) (by omega)]
      · rw [dif_neg h, dif_neg h]
  exact fun offset => H rows.length offset (Nat.sub_le _ _)

/-! ## Agreement of the primary and fetch-free forms -/

theorem keywordBuildingIds_eq (db : DB) :
    keywordBuildingIds db = keywordBuildingIdsE db := by
  funext kw
  unfold keywordBuildingIds keywordBuildingIdsE
  simp only [fetchPages_eq_drop, List.drop_zero]

theorem searchBuildingIdsByKeywords_eq (db : DB) (keywords : List String) :
    searchBuildingIdsByKeywords db keywords = searchBuildingIdsByKeywordsE db keywords := by
  unfold searchBuildingIdsByKeywords searchBuildingIdsByKeywordsE
  rw [keywordBuildingIds_eq]

theorem searchBuildings_eq (db : DB) (query : Option String) (language : Lang)
    (page limit : Nat) :
    searchBuildings db query language page limit =
      searchBuildingsE db query language page limit := by
  unfold searchBuildings searchBuildingsE
  simp only [searchBuildingIdsByKeywords_eq]

theorem keywordBuildingIdsF_noText (db : DB) (fl : Failures)
    (h : fl.textFail = fun _ _ _ => false) :
    keywordBuildingIdsF db fl = keywordBuildingIds db := by
  funext kw
  unfold keywordBuildingIdsF keywordBuildingIds
  rw [h]
  simp only [fetchPagesF_noFail]

theorem searchBuildingIdsByKeywordsF_noText (db : DB) (fl : Failures)
    (h : fl.textFail = fun _ _ _ => false) (keywords : List String) :
    searchBuildingIdsByKeywordsF db fl keywords = searchBuildingIdsByKeywords db keywords := by
  unfold searchBuildingIdsByKeywordsF searchBuildingIdsByKeywords
  rw [keywordBuildingIdsF_noText db fl h]

/-! ## Membership and distinctness of the id sets -/

theorem mem_keywordBuildingIdsE {db : DB} {kw : String} {x : Nat} :
    x ∈ keywordBuildingIdsE db kw ↔
      x ∈ searchFields.foldl (fun acc fc => addAll acc (ilikeBuildingIds db fc.2 kw)) [] := by
  simp [keywordBuildingIdsE, mem_addAll]

theorem mem_fields_foldl (db : DB) (kw : String) :
    ∀ (fields : List (String × (BuildingRow → String))) (acc : List Nat) (x : Nat),
      x ∈ fields.foldl (fun acc fc => addAll acc (ilikeBuildingIds db fc.2 kw)) acc →
      x ∈ acc ∨ x ∈ db.buildings.map (fun b => b.building_id) := by
  intro fields
  induction fields with
  | nil => exact fun acc x h => Or.inl h
  | cons fc t ih =>
    intro acc x h
    simp only [List.foldl_cons] at h
    rcases ih _ x h with h1 | h1
    · rcases mem_addAll.mp h1 with h2 | h2
      · exact Or.inl h2
      · right
        unfold ilikeBuildingIds at h2
        rcases List.mem_map.mp h2 with ⟨b, hb, rfl⟩
        exact List.mem_map.mpr ⟨b, (List.mem_filter.mp hb).1, rfl⟩
    · exact Or.inr h1

/-- Every id produced for a keyword is the id of a stored building row. -/
theorem mem_keywordBuildingIds {db : DB} {kw : String} {x : Nat}
    (h : x ∈ keywordBuildingIds db kw) :
    x ∈ db.buildings.map (fun b => b.building_id) := by
  rw [keywordBuildingIds_eq] at h
  rcases mem_fields_foldl db kw searchFields [] x (mem_keywordBuildingIdsE.mp h) with h0 | h0
  · simp at h0
  · exact h0

theorem nodup_keywordBuildingIds (db : DB) (kw : String) :
    (keywordBuildingIds db kw).Nodup := by
  rw [keywordBuildingIds_eq]
  exact nodup_addAll (nodup_addAll List.nodup_nil)

theorem nodup_foldl_inter :
    ∀ (rest : List (List Nat)) (s0 : List Nat), s0.Nodup →
      (rest.foldl (fun acc s => acc.filter (fun i => decide (i ∈ s))) s0).Nodup := by
  intro rest
  induction rest with
  | nil => exact fun s0 h => h
  | cons s t ih => exact fun s0 h => ih _ (h.filter _)

theorem mem_foldl_inter :
    ∀ (rest : List (List Nat)) (s0 : List Nat) (x : Nat),
      x ∈ rest.foldl (fun acc s => acc.filter (fun i => decide (i ∈ s))) s0 → x ∈ s0 := by
  intro rest
  induction rest with
  | nil => exact fun s0 x h => h
  | cons s t ih =>
    intro s0 x h
    exact (List.mem_filter.mp (ih _ x h)).1

theorem nodup_searchBuildingIds (db : DB) (keywords : List String) :
    (searchBuildingIdsByKeywords db keywords).Nodup := by
  cases keywords with
  | nil => exact List.nodup_nil
  | cons k t =>
    show (List.foldl (fun resultIds s => resultIds.filter (fun i => decide (i ∈ s)))
        (keywordBuildingIds db k) (t.map (keywordBuildingIds db))).Nodup
    exact nodup_foldl_inter _ _ (nodup_keywordBuildingIds db k)

/-- Every id in the intersected result lies in the first keyword's set. -/
theorem mem_searchBuildingIds_head {db : DB} {k : String} {t : List String} {x : Nat}
    (h : x ∈ searchBuildingIdsByKeywords db (k :: t)) :
    x ∈ keywordBuildingIds db k := by
  exact mem_foldl_inter (t.map (keywordBuildingIds db)) (keywordBuildingIds db k) x h

/-! ## Claim theorems -/

/-- C8: for every keyword and every searched text field, the windowed
fetch starts at offset 0, requests windows of 1000 rows, advances by
1000 exactly while full windows return, and terminates having visited
every matching row: started at any offset it returns precisely the
matching rows from that offset on, and started at 0 it returns the
whole matching row set of the field. -/
theorem windowed_fetch_visits_all_rows :
    (∀ (db : DB) (field : BuildingRow → String) (keyword : String),
        fetchPages (ilikeBuildingIds db field keyword) 0 = ilikeBuildingIds db field keyword) ∧
    (∀ (rows : List Nat) (offset : Nat), fetchPages rows offset = rows.drop offset) := by
  constructor
  · intro db field keyword
    rw [fetchPages_eq_drop, List.drop_zero]
  · exact fun rows offset => fetchPages_eq_drop rows offset

/-- C9: the per-keyword building-id set and the final intersected result
of `searchBuildingIdsByKeywords` never repeat a building id, even when a
building matches through several text fields. -/
theorem result_id_sets_are_nodup (db : DB) (keywords : List String) (keyword : String) :
    (keywordBuildingIds db keyword).Nodup ∧
    (searchBuildingIdsByKeywords db keywords).Nodup :=
  ⟨nodup_keywordBuildingIds db keyword, nodup_searchBuildingIds db keywords⟩

/-- C3: for two keywords the intersected result is contained in each
single-keyword result. -/
theorem two_keyword_result_subset (db : DB) (a b : String) (x : Nat)
    (hx : x ∈ searchBuildingIdsByKeywords db [a, b]) :
    x ∈ searchBuildingIdsByKeywords db [a] ∧ x ∈ searchBuildingIdsByKeywords db [b] := by
  have hpair : searchBuildingIdsByKeywords db [a, b] =
      (keywordBuildingIds db a).filter (fun i => decide (i ∈ keywordBuildingIds db b)) := rfl
  have hsingleA : searchBuildingIdsByKeywords db [a] = keywordBuildingIds db a := rfl
  have hsingleB : searchBuildingIdsByKeywords db [b] = keywordBuildingIds db b := rfl
  rw [hpair, List.mem_filter] at hx
  rw [hsingleA, hsingleB]
  exact ⟨hx.1, of_decide_eq_true hx.2⟩

/-- Witness for C3 at a concrete database and keyword pair. -/
theorem two_keyword_result_subset_witness :
    1 ∈ searchBuildingIdsByKeywords dbW ["alpha", "tower"] ∧
    1 ∈ searchBuildingIdsByKeywords dbW ["alpha"] ∧
    1 ∈ searchBuildingIdsByKeywords dbW ["tower"] := by
  have hx : 1 ∈ searchBuildingIdsByKeywords dbW ["alpha", "tower"] := by
    rw [searchBuildingIdsByKeywords_eq]
    decide
  have h := two_keyword_result_subset dbW "alpha" "tower" 1 hx
  exact ⟨hx, h.1, h.2⟩

/-- C4: whenever tokenization yields no keywords (empty, absent or
whitespace-only query), the search returns the well-formed empty result
without raising an error, under every failure assignment. -/
theorem empty_keywords_give_empty_result (db : DB) (fl : Failures) (query : Option String)
    (language : Lang) (page limit : Nat)
    (h : splitKeywords (query.getD "") = []) :
    searchBuildingsF db fl query language page limit =
      Except.ok { data := [], count := 0, page := page, totalPages := 0 } := by
  unfold searchBuildingsF
  simp only [h]
  rfl

/-- Witness for C4: an absent query and a whitespace-only query (with a
full-width space and a tab), under an all-failing text fetch. -/
theorem empty_keywords_give_empty_result_witness :
    splitKeywords ((none : Option String).getD "") = [] ∧
    splitKeywords "　 \t " = [] ∧
    searchBuildingsF dbW flText none Lang.ja 1 20 =
      Except.ok { data := [], count := 0, page := 1, totalPages := 0 } ∧
    searchBuildingsF dbW flText (some "　 \t ") Lang.en 3 10 =
      Except.ok { data := [], count := 0, page := 3, totalPages := 0 } := by
  refine ⟨by decide, by decide, ?_, ?_⟩
  · exact empty_keywords_give_empty_result dbW flText none Lang.ja 1 20 (by decide)
  · exact empty_keywords_give_empty_result dbW flText (some "　 \t ") Lang.en 3 10 (by decide)

/-- C1 (evidence of the code bug): in `dbAndo` the keyword "ando"
matches only the architect's English name; `searchInArchitectTables`
resolves the credited building 42 through the three-step chain, yet the
per-keyword result set and the search result are empty, because the
per-keyword loop replaces the architect contribution with a hard-coded
empty array (line 103). -/
theorem architect_chain_contribution_dropped :
    searchInArchitectTables dbAndo "ando" = [42] ∧
    searchFields.all (fun fc => (ilikeBuildingIds dbAndo fc.2 "ando").isEmpty) = true ∧
    keywordBuildingIds dbAndo "ando" = [] ∧
    searchBuildingIdsByKeywords dbAndo ["ando"] = [] := by
  refine ⟨by decide, by decide, ?_, ?_⟩
  · rw [keywordBuildingIds_eq]
    decide
  · rw [searchBuildingIdsByKeywords_eq]
    decide

/-! ## Tokenizer lemmas and the C5 claims -/

theorem splitOnSpace_ne_nil : ∀ l : List Char, splitOnSpace l ≠ [] := by
  intro l
  induction l with
  | nil => simp [splitOnSpace]
  | cons c t ih =>
    unfold splitOnSpace
    split
    · simp
    · cases h : splitOnSpace t with
      | nil => simp
      | cons a r => simp

theorem mem_splitOnSpace_subset :
    ∀ (l : List Char) (tok : List Char), tok ∈ splitOnSpace l → ∀ c ∈ tok, c ∈ l := by
  intro l
  induction l with
  | nil =>
    intro tok htok c hc
    simp [splitOnSpace] at htok
    subst htok
    simp at hc
  | cons a t ih =>
    intro tok htok c hc
    unfold splitOnSpace at htok
    by_cases ha : a = ' '
    · rw [if_pos ha] at htok
      rcases List.mem_cons.mp htok with rfl | htok2
      · simp at hc
      · exact List.mem_cons_of_mem a (ih tok htok2 c hc)
    · rw [if_neg ha] at htok
      rcases hsp : splitOnSpace t with _ | ⟨h0, r⟩
      · exact absurd hsp (splitOnSpace_ne_nil t)
      · rw [hsp] at htok
        rcases List.mem_cons.mp htok with rfl | htok2
        · rcases List.mem_cons.mp hc with rfl | hc2
          · exact List.mem_cons_self c t
          · exact List.mem_cons_of_mem a (ih h0 (hsp ▸ List.mem_cons_self h0 r) c hc2)
        · exact List.mem_cons_of_mem a
            (ih tok (hsp ▸ List.mem_cons_of_mem h0 htok2) c hc)

theorem mem_splitOnSpace_no_space :
    ∀ (l : List Char) (tok : List Char), tok ∈ splitOnSpace l → ' ' ∉ tok := by
  intro l
  induction l with
  | nil =>
    intro tok htok
    simp [splitOnSpace] at htok
    subst htok
    simp
  | cons a t ih =>
    intro tok htok
    unfold splitOnSpace at htok
    by_cases ha : a = ' '
    · rw [if_pos ha] at htok
      rcases List.mem_cons.mp htok with rfl | htok2
      · simp
      · exact ih tok htok2
    · rw [if_neg ha] at htok
      rcases hsp : splitOnSpace t with _ | ⟨h0, r⟩
      · exact absurd hsp (splitOnSpace_ne_nil t)
      · rw [hsp] at htok
        rcases List.mem_cons.mp htok with rfl | htok2
        · intro hmem
          rcases List.mem_cons.mp hmem with he | hmem2
          · exact ha he.symm
          · exact ih h0 (hsp ▸ List.mem_cons_self h0 r) hmem2
        · exact ih tok (hsp ▸ List.mem_cons_of_mem h0 htok2)

/-- C5 counterexample: on the query consisting of one tab character the
literal "discard only empty tokens" tokenizer keeps the non-empty token
"\t", while the implemented tokenizer discards it (its `trim()` is
empty), so the claimed description fails on this input. -/
theorem splitKeywords_drops_whitespace_only_tokens :
    splitKeywordsLiteral "\t" = ["\t"] ∧ ("\t" : String) ≠ "" ∧ splitKeywords "\t" = [] :=
  ⟨by decide, by decide, by decide⟩

/-- C5 (amended): the tokenizer normalizes full-width spaces, splits on
spaces and keeps order and duplicates, but discards every token whose
`trim()` is empty (whitespace-only tokens included), not only the empty
ones: the claimed examples hold, whitespace-only input yields the empty
list, and every returned token is non-empty, contains a non-whitespace
character and contains no space of either width. -/
theorem splitKeywords_spec_amended :
    splitKeywords "A　B C" = ["A", "B", "C"] ∧
    splitKeywords "" = [] ∧
    splitKeywords "x x" = ["x", "x"] ∧
    (∀ s : String, (∀ c ∈ s.toList, jsWhitespace c = true) → splitKeywords s = []) ∧
    (∀ (s k : String), k ∈ splitKeywords s →
      k ≠ "" ∧ k.toList.any (fun c => !jsWhitespace c) = true ∧
      ' ' ∉ k.toList ∧ '　' ∉ k.toList) := by
  refine ⟨by decide, by decide, by decide, ?_, ?_⟩
  · intro s hs
    unfold splitKeywords
    have hfil : (splitOnSpace (s.toList.map fun c => if c = '　' then ' ' else c)).filter
        (fun keyword => keyword.any (fun c => !jsWhitespace c)) = [] := by
      rw [List.filter_eq_nil_iff]
      intro tok htok
      simp only [Bool.not_eq_true]
      rw [List.any_eq_false]
      intro c hc
      have hcl := mem_splitOnSpace_subset _ tok htok c hc
      rcases List.mem_map.mp hcl with ⟨c0, hc0, rfl⟩
      by_cases h : c0 = '　'
      · rw [if_pos h]
        simp [jsWhitespace]
      · rw [if_neg h]
        simp [hs c0 hc0]
    simp only [hfil, List.map_nil]
  · intro s k hk
    unfold splitKeywords at hk
    rcases List.mem_map.mp hk with ⟨tok, htok, rfl⟩
    have htf := List.mem_filter.mp htok
    have hany : tok.any (fun c => !jsWhitespace c) = true := htf.2
    have hnospace := mem_splitOnSpace_no_space _ tok htf.1
    have htoklist : (String.mk tok).toList = tok := rfl
    refine ⟨?_, ?_, ?_, ?_⟩
    · intro he
      have hnil : tok = [] := by
        have := congrArg String.toList he
        simpa using this
      rw [hnil, List.any_nil] at hany
      exact Bool.false_ne_true hany
    · rw [htoklist]
      exact hany
    · rw [htoklist]
      exact hnospace
    · rw [htoklist]
      intro hmem
      have hin := mem_splitOnSpace_subset _ tok htf.1 _ hmem
      rcases List.mem_map.mp hin with ⟨c0, hc0, hc⟩
      by_cases h : c0 = '　'
      · rw [if_pos h] at hc
        exact absurd hc (by decide)
      · rw [if_neg h] at hc
        exact h hc

/-- Witness for the amended C5 at concrete inputs. -/
theorem splitKeywords_spec_amended_witness :
    splitKeywords "　\t " = [] ∧
    (("a" : String) ≠ "" ∧ "a".toList.any (fun c => !jsWhitespace c) = true ∧
      ' ' ∉ "a".toList ∧ '　' ∉ "a".toList) := by
  refine ⟨?_, ?_⟩
  · exact splitKeywords_spec_amended.2.2.2.1 "　\t " (by decide)
  · exact splitKeywords_spec_amended.2.2.2.2 "a b" "a" (by decide)

/-! ## Failure containment lemmas and the C7 claim -/

theorem searchBuildingsF_ok_of_no_detailFail (db : DB) (fl : Failures)
    (query : Option String) (language : Lang) (page limit : Nat)
    (hd : fl.detailFail = false) :
    ∃ r, searchBuildingsF db fl query language page limit = Except.ok r := by
  unfold searchBuildingsF
  simp only [hd, Bool.false_eq_true, if_false]
  split
  · exact ⟨_, rfl⟩
  · exact ⟨_, rfl⟩

theorem searchBuildingsF_error_of_detailFail (db : DB) (fl : Failures)
    (query : Option String) (language : Lang) (page limit : Nat)
    (hd : fl.detailFail = true)
    (hne : searchBuildingIdsByKeywordsF db fl (splitKeywords (query.getD "")) ≠ []) :
    searchBuildingsF db fl query language page limit = Except.error () := by
  unfold searchBuildingsF
  simp only [hd, if_true]
  rw [if_neg]
  simp only [List.isEmpty_eq_true]
  exact hne

theorem fetchPagesF_fail (fail : Nat → Bool) (rows : List Nat) (offset : Nat)
    (h : fail offset = true) : fetchPagesF fail rows offset = [] := by
  rw [fetchPagesF, if_pos h]

theorem searchInArchitectTablesF_fail (db : DB) (fl : Failures) (keyword : String)
    (h : (fl.archIndividualFail || fl.archCompositionFail || fl.archBuildingFail) = true) :
    searchInArchitectTablesF db fl keyword = [] := by
  unfold searchInArchitectTablesF
  rcases Bool.or_eq_true_iff.mp h with h' | h3
  · rcases Bool.or_eq_true_iff.mp h' with h1 | h2
    · simp [h1]
    · simp [h2]
  · simp [h3]

theorem getArchitectDataForBuildingsF_fail (db : DB) (fl : Failures)
    (buildingIds : List Nat) (b : Nat)
    (h : (fl.baFail || fl.compFail || fl.iaFail) = true) :
    getArchitectDataForBuildingsF db fl buildingIds b = [] := by
  unfold getArchitectDataForBuildingsF
  rcases Bool.or_eq_true_iff.mp h with h' | h3
  · rcases Bool.or_eq_true_iff.mp h' with h1 | h2
    · simp [h1]
    · simp [h2]
  · simp [h3]

/-- C7: every remote failure is contained: with no detail-fetch failure
the search always completes with an ok result, whatever else fails; a
failing text-field page fetch ends that field's loop contributing no
rows from its offset; a failure inside any of the three architect-chain
lookups yields an empty chain contribution; a failure inside any of the
three hydration lookups yields an empty architect record; and the single
exception is the top-level detail fetch, whose failure surfaces as an
error of `searchBuildings` whenever the matched id set is non-empty. -/
theorem remote_failures_degrade_except_detail_fetch (db : DB) (fl : Failures)
    (query : Option String) (language : Lang) (page limit : Nat) :
    (fl.detailFail = false →
      ∃ r, searchBuildingsF db fl query language page limit = Except.ok r) ∧
    (fl.detailFail = true →
      searchBuildingIdsByKeywordsF db fl (splitKeywords (query.getD "")) ≠ [] →
      searchBuildingsF db fl query language page limit = Except.error ()) ∧
    (∀ (fail : Nat → Bool) (rows : List Nat) (offset : Nat),
      fail offset = true → fetchPagesF fail rows offset = []) ∧
    (∀ keyword : String,
      (fl.archIndividualFail || fl.archCompositionFail || fl.archBuildingFail) = true →
      searchInArchitectTablesF db fl keyword = []) ∧
    (∀ (buildingIds : List Nat) (b : Nat),
      (fl.baFail || fl.compFail || fl.iaFail) = true →
      getArchitectDataForBuildingsF db fl buildingIds b = []) :=
  ⟨fun hd => searchBuildingsF_ok_of_no_detailFail db fl query language page limit hd,
   fun hd hne => searchBuildingsF_error_of_detailFail db fl query language page limit hd hne,
   fun fail rows offset h => fetchPagesF_fail fail rows offset h,
   fun keyword h => searchInArchitectTablesF_fail db fl keyword h,
   fun buildingIds b h => getArchitectDataForBuildingsF_fail db fl buildingIds b h⟩

/-- Witness for C7 at concrete databases and failure assignments. -/
theorem remote_failures_witness :
    (∃ r, searchBuildingsF dbW flBa (some "tower") Lang.ja 1 20 = Except.ok r) ∧
    searchBuildingsF dbW flDetail (some "tower") Lang.ja 1 20 = Except.error () ∧
    fetchPagesF (fun _ => true) [5, 6] 0 = [] ∧
    searchInArchitectTablesF dbAndo flArch "ando" = [] ∧
    getArchitectDataForBuildingsF dbTwoGroups flBa [10] 10 = [] := by
  have hne : searchBuildingIdsByKeywordsF dbW flDetail
      (splitKeywords ((some "tower").getD "")) ≠ [] := by
    rw [searchBuildingIdsByKeywordsF_noText dbW flDetail rfl,
      searchBuildingIdsByKeywords_eq]
    decide
  refine ⟨(remote_failures_degrade_except_detail_fetch dbW flBa (some "tower")
      Lang.ja 1 20).1 rfl, ?_, ?_, ?_, ?_⟩
  · exact (remote_failures_degrade_except_detail_fetch dbW flDetail (some "tower")
      Lang.ja 1 20).2.1 rfl hne
  · exact (remote_failures_degrade_except_detail_fetch dbW flBa none
      Lang.ja 1 20).2.2.1 (fun _ => true) [5, 6] 0 rfl
  · exact (remote_failures_degrade_except_detail_fetch dbAndo flArch none
      Lang.ja 1 20).2.2.2.1 "ando" rfl
  · exact (remote_failures_degrade_except_detail_fetch dbTwoGroups flBa none
      Lang.ja 1 20).2.2.2.2 [10] 10 rfl

/-! ## Pagination arithmetic and ordering lemmas -/

theorem ceilDivNat_eq_ceil (n L : Nat) (hL : 1 ≤ L) :
    ceilDivNat n L = Nat.ceil ((n : ℚ) / (L : ℚ)) := by
  have hL0 : (0 : ℚ) < (L : ℚ) := by exact_mod_cast hL
  rcases Nat.eq_zero_or_pos n with rfl | hn
  · have h1 : ceilDivNat 0 L = 0 := by
      unfold ceilDivNat
      exact Nat.div_eq_of_lt (by omega)
    rw [h1]
    norm_num
  · have hq := Nat.div_add_mod (n + L - 1) L
    have hmod : (n + L - 1) % L < L := Nat.mod_lt _ (by omega)
    have hm : ceilDivNat n L = (n + L - 1) / L := rfl
    have hc : ((n + L - 1) / L) * L = L * ((n + L - 1) / L) := Nat.mul_comm _ _
    have hm0 : ceilDivNat n L ≠ 0 := by
      rw [hm]
      intro h0
      rw [h0] at hq
      omega
    rw [eq_comm, Nat.ceil_eq_iff hm0]
    constructor
    · rw [lt_div_iff₀ hL0]
      have he : (ceilDivNat n L - 1) * L = ((n + L - 1) / L) * L - L := by
        rw [hm, Nat.sub_mul, Nat.one_mul]
      have hlt : (ceilDivNat n L - 1) * L < n := by
        rw [he, hc]
        omega
      exact_mod_cast hlt
    · rw [div_le_iff₀ hL0]
      have hle : n ≤ ceilDivNat n L * L := by
        rw [hm, hc]
        omega
      exact_mod_cast hle

theorem isort_key_desc_pairwise (k : α → Nat) (l : List α) :
    (isort (fun a b => decide (k b ≤ k a)) l).Pairwise (fun a b => k b ≤ k a) := by
  have h := @isort_pairwise _ (fun a b => decide (k b ≤ k a))
    (fun a b => by
      rcases Nat.le_total (k b) (k a) with h | h
      · exact Or.inl (decide_eq_true h)
      · exact Or.inr (decide_eq_true h))
    (fun a b c hab hbc =>
      decide_eq_true (Nat.le_trans (of_decide_eq_true hbc) (of_decide_eq_true hab)))
    l
  exact h.imp (fun hx => of_decide_eq_true hx)

theorem sortIdsDesc_perm (l : List Nat) : (sortIdsDesc l).Perm l :=
  isort_perm _ l

theorem sortIdsDesc_strict {l : List Nat} (hnd : l.Nodup) :
    (sortIdsDesc l).Pairwise (fun a b => b < a) := by
  have hle : (sortIdsDesc l).Pairwise (fun a b => b ≤ a) :=
    isort_key_desc_pairwise (fun x => x) l
  have hnd2 : (sortIdsDesc l).Nodup := (sortIdsDesc_perm l).nodup_iff.mpr hnd
  exact (hle.and hnd2).imp (fun h => Nat.lt_of_le_of_ne h.1 (Ne.symm h.2))

/-- The empty-match early return of `searchBuildings` (lines 323-331). -/
theorem searchBuildings_empty (db : DB) (query : Option String) (language : Lang)
    (page limit : Nat)
    (h : searchBuildingIdsByKeywords db (splitKeywords (query.getD "")) = []) :
    searchBuildings db query language page limit =
      { data := [], count := 0, page := page, totalPages := 0 } := by
  unfold searchBuildings
  simp only [h]
  rfl

/-- The non-empty branch of `searchBuildings`, with its let-bindings
spelled out. -/
theorem searchBuildings_components (db : DB) (query : Option String) (language : Lang)
    (page limit : Nat)
    (h : searchBuildingIdsByKeywords db (splitKeywords (query.getD "")) ≠ []) :
    searchBuildings db query language page limit =
      { data :=
          (isort (fun a b => decide (b.building_id <= a.building_id))
              (db.buildings.filter (fun b => decide (b.building_id ∈
                ((sortIdsDesc (searchBuildingIdsByKeywords db
                    (splitKeywords (query.getD "")))).drop ((page - 1) * limit)).take limit)))).map
            (transformBuilding (getArchitectDataForBuildings db
              (((sortIdsDesc (searchBuildingIdsByKeywords db
                  (splitKeywords (query.getD "")))).drop ((page - 1) * limit)).take limit)))
        count := (searchBuildingIdsByKeywords db (splitKeywords (query.getD ""))).length
        page := page
        totalPages :=
          ceilDivNat (searchBuildingIdsByKeywords db (splitKeywords (query.getD ""))).length
            limit } := by
  unfold searchBuildings
  rw [if_neg]
  simp only [List.isEmpty_eq_true]
  exact h

theorem mem_searchBuildingIds_buildings {db : DB} {kws : List String} {x : Nat}
    (h : x ∈ searchBuildingIdsByKeywords db kws) :
    x ∈ db.buildings.map (fun b => b.building_id) := by
  cases kws with
  | nil => simp [searchBuildingIdsByKeywords] at h
  | cons k t => exact mem_keywordBuildingIds (mem_searchBuildingIds_head h)

/-- C2: the matched id set is sorted in strictly descending order, the
page's data slice carries exactly the ids at positions
[(page-1)*limit, page*limit) of the sorted sequence, the count is the
full matched-set size and totalPages is the rational ceiling of
count / limit.  The `Nodup` hypothesis is the primary-key invariant of
the buildings table. -/
theorem pagination_sorts_and_slices (db : DB) (query : Option String) (language : Lang)
    (page limit : Nat) (hp : 1 ≤ page) (hL : 1 ≤ limit)
    (hnd : (db.buildings.map (fun b => b.building_id)).Nodup) :
    (searchBuildings db query language page limit).count =
        (searchBuildingIdsByKeywords db (splitKeywords (query.getD ""))).length ∧
    (searchBuildings db query language page limit).totalPages =
        Nat.ceil (((searchBuildingIdsByKeywords db (splitKeywords (query.getD ""))).length : ℚ)
          / (limit : ℚ)) ∧
    (sortIdsDesc (searchBuildingIdsByKeywords db (splitKeywords (query.getD "")))).Pairwise
        (fun a b => b < a) ∧
    (searchBuildings db query language page limit).data.map (fun tb => tb.building_id) =
      ((sortIdsDesc (searchBuildingIdsByKeywords db (splitKeywords (query.getD "")))).drop
          ((page - 1) * limit)).take limit := by
  by_cases h : searchBuildingIdsByKeywords db (splitKeywords (query.getD "")) = []
  · rw [searchBuildings_empty db query language page limit h, h]
    refine ⟨rfl, by norm_num, List.Pairwise.nil, ?_⟩
    show ([] : List TransformedBuilding).map (fun tb => tb.building_id) =
      ((sortIdsDesc []).drop ((page - 1) * limit)).take limit
    simp [sortIdsDesc, isort]
  · rw [searchBuildings_components db query language page limit h]
    set ids := searchBuildingIdsByKeywords db (splitKeywords (query.getD "")) with hids
    set off := (page - 1) * limit with hoff
    set pIds := ((sortIdsDesc ids).drop off).take limit with hpids
    have hidnd : ids.Nodup := nodup_searchBuildingIds db _
    have hstrict : (sortIdsDesc ids).Pairwise (fun a b => b < a) := sortIdsDesc_strict hidnd
    refine ⟨rfl, ceilDivNat_eq_ceil ids.length limit hL, hstrict, ?_⟩
    set rows := db.buildings.filter (fun b => decide (b.building_id ∈ pIds)) with hrows
    set S := isort (fun a b => decide (b.building_id <= a.building_id)) rows with hS
    show (S.map (transformBuilding (getArchitectDataForBuildings db pIds))).map
      (fun tb => tb.building_id) = pIds
    rw [List.map_map]
    have hcomp : ((fun tb : TransformedBuilding => tb.building_id) ∘
        transformBuilding (getArchitectDataForBuildings db pIds)) =
        (fun b : BuildingRow => b.building_id) := funext (fun b => rfl)
    rw [hcomp]
    have hSperm : S.Perm rows := isort_perm _ rows
    have hrows_nodup : (rows.map (fun b => b.building_id)).Nodup := by
      have hsub : (rows.map (fun b => b.building_id)).Sublist
          (db.buildings.map (fun b => b.building_id)) :=
        (List.filter_sublist db.buildings).map _
      exact List.Nodup.sublist hsub hnd
    have hSmap_nodup : (S.map (fun b => b.building_id)).Nodup :=
      ((hSperm.map _).nodup_iff).mpr hrows_nodup
    have hSmap_strict : (S.map (fun b => b.building_id)).Pairwise (fun a b => b < a) := by
      have hle : S.Pairwise (fun a b => b.building_id ≤ a.building_id) :=
        isort_key_desc_pairwise (fun b => b.building_id) rows
      have hstrictS : S.Pairwise (fun a b => b.building_id < a.building_id) :=
        pairwise_strict_of_nodup_keys_desc hle hSmap_nodup
      exact List.pairwise_map.mpr hstrictS
    have hpIds_sub : pIds.Sublist (sortIdsDesc ids) :=
      (List.take_sublist _ _).trans (List.drop_sublist _ _)
    have hpIds_strict : pIds.Pairwise (fun a b => b < a) :=
      List.Pairwise.sublist hpIds_sub hstrict
    have hpIds_nodup : pIds.Nodup :=
      hpIds_strict.imp (fun h => Ne.symm (Nat.ne_of_lt h))
    have hmem : ∀ y : Nat, y ∈ S.map (fun b => b.building_id) ↔ y ∈ pIds := by
      intro y
      constructor
      · intro hy
        rcases List.mem_map.mp hy with ⟨b, hb, rfl⟩
        exact of_decide_eq_true (List.mem_filter.mp (hSperm.mem_iff.mp hb)).2
      · intro hy
        have hyids : y ∈ ids := (sortIdsDesc_perm ids).mem_iff.mp (hpIds_sub.subset hy)
        rcases List.mem_map.mp (mem_searchBuildingIds_buildings hyids) with ⟨b, hb, rfl⟩
        exact List.mem_map.mpr ⟨b, hSperm.mem_iff.mpr
          (List.mem_filter.mpr ⟨hb, decide_eq_true hy⟩), rfl⟩
    have hperm : (S.map (fun b => b.building_id)).Perm pIds :=
      (List.perm_ext_iff_of_nodup hSmap_nodup hpIds_nodup).mpr hmem
    exact perm_pairwise_eq (fun a b h1 h2 => Nat.lt_asymm h1 h2) hperm hSmap_strict hpIds_strict

/-- Witness for C2 at a concrete database: two matches, page 1 of size 1. -/
theorem pagination_sorts_and_slices_witness :
    (searchBuildings dbW (some "tower") Lang.ja 1 1).count =
        (searchBuildingIdsByKeywords dbW (splitKeywords ((some "tower").getD ""))).length ∧
    (searchBuildings dbW (some "tower") Lang.ja 1 1).totalPages =
        Nat.ceil (((searchBuildingIdsByKeywords dbW
          (splitKeywords ((some "tower").getD ""))).length : ℚ) / ((1 : Nat) : ℚ)) ∧
    (sortIdsDesc (searchBuildingIdsByKeywords dbW
        (splitKeywords ((some "tower").getD "")))).Pairwise (fun a b => b < a) ∧
    (searchBuildings dbW (some "tower") Lang.ja 1 1).data.map (fun tb => tb.building_id) =
      ((sortIdsDesc (searchBuildingIdsByKeywords dbW
          (splitKeywords ((some "tower").getD "")))).drop ((1 - 1) * 1)).take 1 :=
  pagination_sorts_and_slices dbW (some "tower") Lang.ja 1 1 (by decide) (by decide) (by decide)

/-- C10: a page beyond the end of a non-empty matched set yields an
empty data slice while count, page and totalPages are reported
unchanged -- the page is neither clamped nor an error. -/
theorem page_past_end_is_empty (db : DB) (query : Option String) (language : Lang)
    (page limit : Nat) (hp : 1 ≤ page) (hL : 1 ≤ limit)
    (hne : searchBuildingIdsByKeywords db (splitKeywords (query.getD "")) ≠ [])
    (hpast : (searchBuildingIdsByKeywords db (splitKeywords (query.getD ""))).length ≤
      (page - 1) * limit) :
    (searchBuildings db query language page limit).data = [] ∧
    (searchBuildings db query language page limit).count =
      (searchBuildingIdsByKeywords db (splitKeywords (query.getD ""))).length ∧
    (searchBuildings db query language page limit).page = page ∧
    (searchBuildings db query language page limit).totalPages =
      Nat.ceil (((searchBuildingIdsByKeywords db
        (splitKeywords (query.getD ""))).length : ℚ) / (limit : ℚ)) := by
  rw [searchBuildings_components db query language page limit hne]
  set ids := searchBuildingIdsByKeywords db (splitKeywords (query.getD "")) with hids
  have hdrop : (sortIdsDesc ids).drop ((page - 1) * limit) = [] :=
    List.drop_eq_nil_of_le (by rw [(sortIdsDesc_perm ids).length_eq]; exact hpast)
  refine ⟨?_, rfl, rfl, ceilDivNat_eq_ceil ids.length limit hL⟩
  show (isort (fun a b => decide (b.building_id <= a.building_id))
      (db.buildings.filter (fun b => decide (b.building_id ∈
        ((sortIdsDesc ids).drop ((page - 1) * limit)).take limit)))).map
    (transformBuilding (getArchitectDataForBuildings db
      (((sortIdsDesc ids).drop ((page - 1) * limit)).take limit))) = []
  rw [hdrop]
  have hfil : db.buildings.filter
      (fun b => decide (b.building_id ∈ (([] : List Nat)).take limit)) = [] := by
    simp
  rw [hfil]
  rfl

/-- Witness for C10: page 5 of size 2 over a two-element matched set. -/
theorem page_past_end_is_empty_witness :
    (searchBuildings dbW (some "tower") Lang.ja 5 2).data = [] ∧
    (searchBuildings dbW (some "tower") Lang.ja 5 2).count =
      (searchBuildingIdsByKeywords dbW (splitKeywords ((some "tower").getD ""))).length ∧
    (searchBuildings dbW (some "tower") Lang.ja 5 2).page = 5 ∧
    (searchBuildings dbW (some "tower") Lang.ja 5 2).totalPages =
      Nat.ceil (((searchBuildingIdsByKeywords dbW
        (splitKeywords ((some "tower").getD ""))).length : ℚ) / ((2 : Nat) : ℚ)) :=
  page_past_end_is_empty dbW (some "tower") Lang.ja 5 2 (by decide) (by decide)
    (by rw [searchBuildingIdsByKeywords_eq]; decide)
    (by rw [searchBuildingIdsByKeywords_eq]; decide)

/-! ## Hydration pipeline lemmas for the architect display -/

theorem getArchitectData_bas_empty (db : DB) (ids : List Nat)
    (h : basOf db ids = []) :
    getArchitectDataForBuildings db ids = fun _ => [] := by
  have e1 : (isort leBuildingOrder (db.building_architects.filter
      (fun ba => decide (ba.building_id ∈ ids)))).isEmpty = true := by
    rw [List.isEmpty_eq_true]
    exact h
  simp only [getArchitectDataForBuildings, e1, if_true, ite_self]

theorem getArchitectData_comps_empty (db : DB) (ids : List Nat)
    (h : compsOf db ids = []) :
    getArchitectDataForBuildings db ids = fun _ => [] := by
  have e2 : (isort leArchitectIndex (db.architect_compositions.filter (fun ac =>
      decide (ac.architect_id ∈ dedupJs ((isort leBuildingOrder
        (db.building_architects.filter (fun ba => decide (ba.building_id ∈ ids)))).map
        (fun ba => ba.architect_id)))))).isEmpty = true := by
    rw [List.isEmpty_eq_true]
    exact h
  simp only [getArchitectDataForBuildings, e2, if_true, ite_self]

theorem getArchitectData_main (db : DB) (ids : List Nat)
    (h0 : ids ≠ []) (h1 : basOf db ids ≠ []) (h2 : compsOf db ids ≠ []) :
    getArchitectDataForBuildings db ids =
      fun b => ((basOf db ids).filter (fun ba => decide (ba.building_id = b))).map
        (groupEntryOf db ids) := by
  have e0 : ids.isEmpty = false := by
    rw [List.isEmpty_eq_false]
    exact h0
  have e1 : (isort leBuildingOrder (db.building_architects.filter
      (fun ba => decide (ba.building_id ∈ ids)))).isEmpty = false := by
    rw [List.isEmpty_eq_false]
    exact h1
  have e2 : (isort leArchitectIndex (db.architect_compositions.filter (fun ac =>
      decide (ac.architect_id ∈ dedupJs ((isort leBuildingOrder
        (db.building_architects.filter (fun ba => decide (ba.building_id ∈ ids)))).map
        (fun ba => ba.architect_id)))))).isEmpty = false := by
    rw [List.isEmpty_eq_false]
    exact h2
  simp only [getArchitectDataForBuildings, e0, e1, e2, Bool.false_eq_true, if_false]
  rfl

/-- Transport of a stable key sort along a key-preserving map, for
key-distinct lists: sorting the image equals mapping the sorted list. -/
theorem isort_map_key_eq {α β : Type _} (k : α → Nat) (kb : β → Nat) (f : α → β)
    (leA : α → α → Bool) (leB : β → β → Bool)
    (hA : ∀ a b, leA a b = true ↔ k a ≤ k b)
    (hB : ∀ a b, leB a b = true ↔ kb a ≤ kb b)
    (hpres : ∀ a, kb (f a) = k a)
    {l₁ l₂ : List α} (hperm : l₁.Perm l₂) (hnd : (l₂.map k).Nodup) :
    isort leB (l₁.map f) = (isort leA l₂).map f := by
  have htotB : ∀ x y, leB x y = true ∨ leB y x = true := by
    intro x y
    rcases Nat.le_total (kb x) (kb y) with h | h
    · exact Or.inl ((hB x y).mpr h)
    · exact Or.inr ((hB y x).mpr h)
  have htransB : ∀ x y z, leB x y = true → leB y z = true → leB x z = true :=
    fun x y z hxy hyz =>
      (hB x z).mpr (Nat.le_trans ((hB x y).mp hxy) ((hB y z).mp hyz))
  have htotA : ∀ x y, leA x y = true ∨ leA y x = true := by
    intro x y
    rcases Nat.le_total (k x) (k y) with h | h
    · exact Or.inl ((hA x y).mpr h)
    · exact Or.inr ((hA y x).mpr h)
  have htransA : ∀ x y z, leA x y = true → leA y z = true → leA x z = true :=
    fun x y z hxy hyz =>
      (hA x z).mpr (Nat.le_trans ((hA x y).mp hxy) ((hA y z).mp hyz))
  have hLperm : (isort leB (l₁.map f)).Perm (l₂.map f) :=
    (isort_perm _ _).trans (hperm.map f)
  have hLkeys : ((isort leB (l₁.map f)).map kb).Nodup := by
    have h1 : ((isort leB (l₁.map f)).map kb).Perm ((l₂.map f).map kb) := hLperm.map kb
    rw [List.map_map] at h1
    have h2 : l₂.map (kb ∘ f) = l₂.map k :=
      List.map_congr_left (fun a _ => hpres a)
    rw [h2] at h1
    exact h1.nodup_iff.mpr hnd
  have hLsorted : (isort leB (l₁.map f)).Pairwise (fun x y => kb x < kb y) := by
    have hle : (isort leB (l₁.map f)).Pairwise (fun x y => leB x y = true) :=
      isort_pairwise htotB htransB _
    exact pairwise_strict_of_nodup_keys (hle.imp (fun h => (hB _ _).mp h)) hLkeys
  have hRperm0 : (isort leA l₂).Perm l₂ := isort_perm _ _
  have hRkeys : ((isort leA l₂).map k).Nodup := ((hRperm0.map k).nodup_iff).mpr hnd
  have hRsorted0 : (isort leA l₂).Pairwise (fun x y => k x < k y) := by
    have hle := isort_pairwise htotA htransA l₂
    exact pairwise_strict_of_nodup_keys (hle.imp (fun h => (hA _ _).mp h)) hRkeys
  have hRsorted : ((isort leA l₂).map f).Pairwise (fun x y => kb x < kb y) := by
    apply List.pairwise_map.mpr
    exact hRsorted0.imp (fun h => by rw [hpres, hpres]; exact h)
  have hperm2 : (isort leB (l₁.map f)).Perm ((isort leA l₂).map f) :=
    hLperm.trans ((hRperm0.symm).map f)
  exact perm_pairwise_eq (fun a b h1 h2 => Nat.lt_asymm h1 h2) hperm2 hLsorted hRsorted

theorem mem_basOf {db : DB} {ids : List Nat} {ba : BuildingArchitectRow} :
    ba ∈ basOf db ids ↔ ba ∈ db.building_architects ∧ ba.building_id ∈ ids := by
  unfold basOf
  rw [(isort_perm _ _).mem_iff, List.mem_filter]
  simp

theorem mem_compsOf {db : DB} {ids : List Nat} {ac : ArchitectCompositionRow} :
    ac ∈ compsOf db ids ↔
      ac ∈ db.architect_compositions ∧ ac.architect_id ∈ architectIdsOf db ids := by
  unfold compsOf
  rw [(isort_perm _ _).mem_iff, List.mem_filter]
  simp

theorem basOf_filter_perm (db : DB) (ids : List Nat) (b : Nat) (hb : b ∈ ids) :
    ((basOf db ids).filter (fun ba => decide (ba.building_id = b))).Perm
      (db.building_architects.filter (fun ba => decide (ba.building_id = b))) := by
  unfold basOf
  have h1 := (isort_perm leBuildingOrder (db.building_architects.filter
      (fun ba => decide (ba.building_id ∈ ids)))).filter
    (fun ba => decide (ba.building_id = b))
  rw [List.filter_filter] at h1
  have h2 : db.building_architects.filter
      (fun a => decide (a.building_id = b) && decide (a.building_id ∈ ids)) =
      db.building_architects.filter (fun a => decide (a.building_id = b)) := by
    apply List.filter_congr
    intro x _
    by_cases hxb : x.building_id = b
    · simp [hxb, hb]
    · simp [hxb]
  rwa [h2] at h1

theorem compsOf_filter_perm (db : DB) (ids : List Nat) (a : Nat)
    (ha : a ∈ architectIdsOf db ids) :
    ((compsOf db ids).filter (fun ac => decide (ac.architect_id = a))).Perm
      (db.architect_compositions.filter (fun ac => decide (ac.architect_id = a))) := by
  unfold compsOf
  have h1 := (isort_perm leArchitectIndex (db.architect_compositions.filter
      (fun ac => decide (ac.architect_id ∈ architectIdsOf db ids)))).filter
    (fun ac => decide (ac.architect_id = a))
  rw [List.filter_filter] at h1
  have h2 : db.architect_compositions.filter
      (fun x => decide (x.architect_id = a) && decide (x.architect_id ∈ architectIdsOf db ids)) =
      db.architect_compositions.filter (fun x => decide (x.architect_id = a)) := by
    apply List.filter_congr
    intro x _
    by_cases hxa : x.architect_id = a
    · simp [hxa, ha]
    · simp [hxa]
  rwa [h2] at h1

/-- Within one building, credited rows have pairwise distinct
`architect_order` (from the global ordering invariant). -/
theorem rows_orders_nodup (db : DB) (b : Nat)
    (H2 : db.building_architects.Pairwise
      (fun x y => x.building_id = y.building_id → x.architect_order ≠ y.architect_order)) :
    ((db.building_architects.filter (fun ba => decide (ba.building_id = b))).map
      (fun ba => ba.architect_order)).Nodup := by
  apply List.pairwise_map.mpr
  apply (H2.filter (fun ba => decide (ba.building_id = b))).imp_of_mem
  intro x y hx hy hr
  have hxb : x.building_id = b := of_decide_eq_true (List.mem_filter.mp hx).2
  have hyb : y.building_id = b := of_decide_eq_true (List.mem_filter.mp hy).2
  exact hr (hxb.trans hyb.symm)

/-- Within one architect group, member rows have pairwise distinct
`order_index`. -/
theorem comps_indexes_nodup (db : DB) (a : Nat)
    (H3 : db.architect_compositions.Pairwise
      (fun x y => x.architect_id = y.architect_id → x.order_index ≠ y.order_index)) :
    ((db.architect_compositions.filter (fun ac => decide (ac.architect_id = a))).map
      (fun ac => ac.order_index)).Nodup := by
  apply List.pairwise_map.mpr
  apply (H3.filter (fun ac => decide (ac.architect_id = a))).imp_of_mem
  intro x y hx hy hr
  have hxa : x.architect_id = a := of_decide_eq_true (List.mem_filter.mp hx).2
  have hya : y.architect_id = a := of_decide_eq_true (List.mem_filter.mp hy).2
  exact hr (hxa.trans hya.symm)

/-- With unique individual-architect ids, the last-entry `Map` lookup
over the fetched subset equals the first-match lookup over the table. -/
theorem architectMapOf_eq_find (db : DB) (ids : List Nat) (i : Nat)
    (H1 : (db.individual_architects.map (fun ia => ia.individual_architect_id)).Nodup)
    (hi : i ∈ iaIdsOf db ids) :
    architectMapOf db ids i =
      db.individual_architects.find? (fun ia => decide (ia.individual_architect_id = i)) := by
  unfold architectMapOf iasOf
  rcases hf : db.individual_architects.find? (fun ia => decide (ia.individual_architect_id = i))
    with _ | y
  · rw [hf, List.find?_eq_none]
    rw [List.find?_eq_none] at hf
    intro x hx
    exact hf x (List.mem_filter.mp (List.mem_reverse.mp hx)).1
  · rw [hf]
    have hy_mem : y ∈ db.individual_architects := List.mem_of_find?_eq_some hf
    have hy_p := @List.find?_some IndividualArchitectRow
      (fun ia => decide (ia.individual_architect_id = i)) y db.individual_architects hf
    have hy_id : y.individual_architect_id = i := of_decide_eq_true hy_p
    rcases hz : (db.individual_architects.filter (fun ia =>
        decide (ia.individual_architect_id ∈ iaIdsOf db ids))).reverse.find?
        (fun ia => decide (ia.individual_architect_id = i)) with _ | z
    · exfalso
      have hsome : ((db.individual_architects.filter (fun ia =>
          decide (ia.individual_architect_id ∈ iaIdsOf db ids))).reverse.find?
          (fun ia => decide (ia.individual_architect_id = i))).isSome = true := by
        rw [List.find?_isSome]
        refine ⟨y, ?_, hy_p⟩
        rw [List.mem_reverse]
        exact List.mem_filter.mpr ⟨hy_mem, by rw [hy_id]; exact decide_eq_true hi⟩
      rw [hz] at hsome
      simp at hsome
    · have hz_mem : z ∈ db.individual_architects :=
        (List.mem_filter.mp (List.mem_reverse.mp (List.mem_of_find?_eq_some hz))).1
      have hz_p := @List.find?_some IndividualArchitectRow
        (fun ia => decide (ia.individual_architect_id = i)) z
        ((db.individual_architects.filter (fun ia =>
          decide (ia.individual_architect_id ∈ iaIdsOf db ids))).reverse) hz
      have hz_id : z.individual_architect_id = i := of_decide_eq_true hz_p
      rw [hz, List.inj_on_of_nodup_map H1 hz_mem hy_mem (hz_id.trans hy_id.symm)]

theorem intercalate_sep_nil : String.intercalate " / " [] = "" := rfl

/-- The reassembled display string of one requested building equals the
spec-side reference display, given the primary-key invariant of
`individual_architects` and distinct ordering keys per building and per
group. -/
theorem displayName_correct (db : DB) (ids : List Nat) (b : Nat) (hb : b ∈ ids)
    (H1 : (db.individual_architects.map (fun ia => ia.individual_architect_id)).Nodup)
    (H2 : db.building_architects.Pairwise
      (fun x y => x.building_id = y.building_id → x.architect_order ≠ y.architect_order))
    (H3 : db.architect_compositions.Pairwise
      (fun x y => x.architect_id = y.architect_id → x.order_index ≠ y.order_index))
    (name : IndividualArchitectRow → Option String) :
    joinArchitectNames name (getArchitectDataForBuildings db ids b) =
      specArchitectDisplay db name b := by
  have h0 : ids ≠ [] := by
    intro h
    rw [h] at hb
    simp at hb
  by_cases h1 : basOf db ids = []
  · rw [getArchitectData_bas_empty db ids h1]
    have hrowsB : db.building_architects.filter (fun ba => decide (ba.building_id = b)) = [] := by
      rw [List.filter_eq_nil_iff]
      intro x hx hxb
      have hmem : x ∈ basOf db ids :=
        mem_basOf.mpr ⟨hx, by rw [of_decide_eq_true hxb]; exact hb⟩
      rw [h1] at hmem
      simp at hmem
    simp only [specArchitectDisplay, hrowsB]
    rfl
  · by_cases h2 : compsOf db ids = []
    · rw [getArchitectData_comps_empty db ids h2]
      have hmembers : ∀ ba ∈ db.building_architects.filter (fun x => decide (x.building_id = b)),
          db.architect_compositions.filter
            (fun ac => decide (ac.architect_id = ba.architect_id)) = [] := by
        intro ba hba
        rw [List.filter_eq_nil_iff]
        intro ac hac hacp
        have hbam := List.mem_filter.mp hba
        have hbain : ba ∈ basOf db ids :=
          mem_basOf.mpr ⟨hbam.1, by rw [of_decide_eq_true hbam.2]; exact hb⟩
        have haid : ba.architect_id ∈ architectIdsOf db ids := by
          unfold architectIdsOf
          rw [mem_dedupJs]
          exact List.mem_map.mpr ⟨ba, hbain, rfl⟩
        have hcm : ac ∈ compsOf db ids :=
          mem_compsOf.mpr ⟨hac, by rw [of_decide_eq_true hacp]; exact haid⟩
        rw [h2] at hcm
        simp at hcm
      simp only [specArchitectDisplay]
      have hfilter : ((isort leGroupOrderRow (db.building_architects.filter
          (fun ba => decide (ba.building_id = b)))).map (fun ba =>
            String.intercalate " / "
              ((isort leCompIndexRow (db.architect_compositions.filter (fun ac =>
                decide (ac.architect_id = ba.architect_id)))).filterMap (fun ac =>
                  truthy ((db.individual_architects.find? (fun ia =>
                    decide (ia.individual_architect_id = ac.individual_architect_id))).bind
                    name))))).filter (fun s => s != "") = [] := by
        rw [List.filter_eq_nil_iff]
        intro s hs
        rcases List.mem_map.mp hs with ⟨ba, hba, rfl⟩
        have hbam : ba ∈ db.building_architects.filter (fun x => decide (x.building_id = b)) :=
          (isort_perm _ _).mem_iff.mp hba
        rw [hmembers ba hbam]
        simp [isort, intercalate_sep_nil]
      rw [hfilter]
      rfl
    · simp only [getArchitectData_main db ids h0 h1 h2]
      simp only [joinArchitectNames, specArchitectDisplay]
      have hsort := isort_map_key_eq
        (fun ba : BuildingArchitectRow => ba.architect_order)
        (fun g : GroupEntry => g.architect_order)
        (groupEntryOf db ids) leGroupOrderRow leGroupOrder
        (fun x y => by simp [leGroupOrderRow])
        (fun x y => by simp [leGroupOrder])
        (fun x => rfl)
        (basOf_filter_perm db ids b hb)
        (rows_orders_nodup db b H2)
      rw [hsort, List.map_map]
      have hmap : (isort leGroupOrderRow (db.building_architects.filter
          (fun ba => decide (ba.building_id = b)))).map
            ((fun ba : GroupEntry => String.intercalate " / "
              ((isort leCompIndex ba.architect_compositions).filterMap
                (fun ac => truthy (ac.individual_architects.bind name)))) ∘
              groupEntryOf db ids) =
          (isort leGroupOrderRow (db.building_architects.filter
            (fun ba => decide (ba.building_id = b)))).map (fun ba =>
              String.intercalate " / "
                ((isort leCompIndexRow (db.architect_compositions.filter (fun ac =>
                  decide (ac.architect_id = ba.architect_id)))).filterMap (fun ac =>
                    truthy ((db.individual_architects.find? (fun ia =>
                      decide (ia.individual_architect_id =
                        ac.individual_architect_id))).bind name)))) := by
        apply List.map_congr_left
        intro ba hba
        have hbam := List.mem_filter.mp ((isort_perm _ _).mem_iff.mp hba)
        have hbain : ba ∈ basOf db ids :=
          mem_basOf.mpr ⟨hbam.1, by rw [of_decide_eq_true hbam.2]; exact hb⟩
        have haid : ba.architect_id ∈ architectIdsOf db ids := by
          unfold architectIdsOf
          rw [mem_dedupJs]
          exact List.mem_map.mpr ⟨ba, hbain, rfl⟩
        show String.intercalate " / "
            ((isort leCompIndex (groupEntryOf db ids ba).architect_compositions).filterMap
              (fun ac => truthy (ac.individual_architects.bind name))) = _
        have hcomps : (groupEntryOf db ids ba).architect_compositions =
            ((compsOf db ids).filter (fun ac =>
              decide (ac.architect_id = ba.architect_id))).map (compEntryOf db ids) := rfl
        rw [hcomps]
        have hsort2 := isort_map_key_eq
          (fun ac : ArchitectCompositionRow => ac.order_index)
          (fun e : CompEntry => e.order_index)
          (compEntryOf db ids) leCompIndexRow leCompIndex
          (fun x y => by simp [leCompIndexRow])
          (fun x y => by simp [leCompIndex])
          (fun x => rfl)
          (compsOf_filter_perm db ids ba.architect_id haid)
          (comps_indexes_nodup db ba.architect_id H3)
        rw [hsort2, List.filterMap_map]
        apply congrArg (String.intercalate " / ")
        apply List.filterMap_congr
        intro ac hac
        have hacm := List.mem_filter.mp ((isort_perm _ _).mem_iff.mp hac)
        have hacin : ac ∈ compsOf db ids :=
          mem_compsOf.mpr ⟨hacm.1, by rw [of_decide_eq_true hacm.2]; exact haid⟩
        have hiid : ac.individual_architect_id ∈ iaIdsOf db ids := by
          unfold iaIdsOf
          rw [mem_dedupJs]
          exact List.mem_map.mpr ⟨ac, hacin, rfl⟩
        show truthy ((compEntryOf db ids ac).individual_architects.bind name) = _
        have hce : (compEntryOf db ids ac).individual_architects =
            architectMapOf db ids ac.individual_architect_id := rfl
        rw [hce, architectMapOf_eq_find db ids ac.individual_architect_id H1 hiid]
      rw [hmap]

/-- C6: every building of a returned page carries, per language, the
display string obtained by ordering its credited groups by
`architect_order`, ordering each group's members by `order_index`,
dropping members with no (or empty) name in that language, joining
member names with " / " and joining the non-empty group strings with
" / " again -- the spec-side reference `specArchitectDisplay`. -/
theorem architect_names_reassembled (db : DB) (query : Option String) (language : Lang)
    (page limit : Nat) (tb : TransformedBuilding)
    (H1 : (db.individual_architects.map (fun ia => ia.individual_architect_id)).Nodup)
    (H2 : db.building_architects.Pairwise
      (fun x y => x.building_id = y.building_id → x.architect_order ≠ y.architect_order))
    (H3 : db.architect_compositions.Pairwise
      (fun x y => x.architect_id = y.architect_id → x.order_index ≠ y.order_index))
    (htb : tb ∈ (searchBuildings db query language page limit).data) :
    tb.architectJa = specArchitectDisplay db IndividualArchitectRow.name_ja tb.building_id ∧
    tb.architectEn = specArchitectDisplay db IndividualArchitectRow.name_en tb.building_id := by
  by_cases h : searchBuildingIdsByKeywords db (splitKeywords (query.getD "")) = []
  · rw [searchBuildings_empty db query language page limit h] at htb
    simp at htb
  · rw [searchBuildings_components db query language page limit h] at htb
    rcases List.mem_map.mp htb with ⟨brow, hbrow, rfl⟩
    have hbmem := List.mem_filter.mp ((isort_perm _ _).mem_iff.mp hbrow)
    have hbin : brow.building_id ∈
        ((sortIdsDesc (searchBuildingIdsByKeywords db
          (splitKeywords (query.getD "")))).drop ((page - 1) * limit)).take limit :=
      of_decide_eq_true hbmem.2
    exact ⟨displayName_correct db _ brow.building_id hbin H1 H2 H3 IndividualArchitectRow.name_ja,
           displayName_correct db _ brow.building_id hbin H1 H2 H3 IndividualArchitectRow.name_en⟩

/-- Witness for C6: one building credited to two ordered groups of two
ordered named members each, whose display is
"G1m1 / G1m2 / G2m1 / G2m2". -/
theorem architect_names_reassembled_witness :
    ((⟨10, 10, "museum", "", none, "10", "", "", "", "", none, 0, 0, none, none,
        "G1m1 / G1m2 / G2m1 / G2m2",
        "G1m1en / G1m2en / G2m1en / G2m2en"⟩ : TransformedBuilding).architectJa =
      specArchitectDisplay dbTwoGroups IndividualArchitectRow.name_ja 10 ∧
     (⟨10, 10, "museum", "", none, "10", "", "", "", "", none, 0, 0, none, none,
        "G1m1 / G1m2 / G2m1 / G2m2",
        "G1m1en / G1m2en / G2m1en / G2m2en"⟩ : TransformedBuilding).architectEn =
      specArchitectDisplay dbTwoGroups IndividualArchitectRow.name_en 10) ∧
    specArchitectDisplay dbTwoGroups IndividualArchitectRow.name_ja 10 =
      "G1m1 / G1m2 / G2m1 / G2m2" := by
  constructor
  · have hm : (⟨10, 10, "museum", "", none, "10", "", "", "", "", none, 0, 0, none, none,
        "G1m1 / G1m2 / G2m1 / G2m2",
        "G1m1en / G1m2en / G2m1en / G2m2en"⟩ : TransformedBuilding) ∈
        (searchBuildings dbTwoGroups (some "museum") Lang.ja 1 20).data := by
      rw [searchBuildings_eq]
      decide
    exact architect_names_reassembled dbTwoGroups (some "museum") Lang.ja 1 20 _
      (by decide) (by decide) (by decide) hm
  · decide

end MySQLStyleSearch
